import Mathlib

/-!
# lv_slider: value/geometry mapping and pointer interaction

A shallow embedding of `src/lv_objx/lv_slider.c` (the slider widget built on
the bar widget) and the properties of its signal handler and draw routine.

Conventions of the embedding:

* `cord_t` and every `int16_t` variable is an `Int`; each store into such a
  variable narrows with `wrap16` (two's complement, modulo `2^16`).
* `int32_t` products are narrowed with `wrap32`; sums and differences of
  `int16_t` operands are computed in `int` and cannot leave 32 bits.
* `/` is C division: it truncates toward zero (`Int.tdiv`) and has no result
  when the divisor is zero (`none`).
* Calls into collaborators that the slider only observes (the on-change
  callback, the ancestor draw routine, the rectangle primitive) are recorded
  in the result, in call order.
-/

namespace LvSlider

/-! ## Machine integers -/

/-- Narrowing of an `int` to `int16_t` (two's complement wrap-around). -/
def wrap16 (x : Int) : Int := (x + 32768) % 65536 - 32768

/-- Narrowing of an integer to `int32_t` (two's complement wrap-around). -/
def wrap32 (x : Int) : Int := (x + 2147483648) % 4294967296 - 2147483648

/-- The value range of `int16_t`. -/
def isInt16 (x : Int) : Prop := -32768 ≤ x ∧ x ≤ 32767

instance (x : Int) : Decidable (isInt16 x) := by
  unfold isInt16; infer_instance

/-- C division of `int32_t` operands: no result on a zero divisor, otherwise
the quotient truncated toward zero, kept in 32 bits. -/
def cdiv (a b : Int) : Option Int :=
  if b = 0 then none else some (wrap32 (Int.tdiv a b))

/-! ## Data model -/

/-- A point, `point_t` (both members are `cord_t`). -/
structure point_t where
  x : Int
  y : Int
  deriving DecidableEq, Repr

/-- A rectangle with inclusive corners, `area_t`. -/
structure area_t where
  x1 : Int
  y1 : Int
  x2 : Int
  y2 : Int
  deriving DecidableEq, Repr

/-- The inherited bar data, `lv_bar_ext_t`: current value and range. -/
structure lv_bar_ext_t where
  act_value : Int
  min_value : Int
  max_value : Int
  deriving DecidableEq, Repr

/-- A callback, `lv_action_t`: function pointers are told apart by an
identifier. -/
abbrev lv_action_t := Nat

/-- The slider data, `lv_slider_ext_t`: the bar data, the on-change callback
(`none` is `NULL`) and the value stored at press time. -/
structure lv_slider_ext_t where
  bar : lv_bar_ext_t
  cb : Option lv_action_t
  tmp_value : Int
  deriving DecidableEq, Repr

/-- The part of `lv_obj_t` the slider reads: its coordinates and its
extended data. -/
structure lv_obj_t where
  cords : area_t
  ext : lv_slider_ext_t
  deriving DecidableEq, Repr

/-- The signals of `lv_signal_t`. -/
inductive lv_signal_t where
  | LV_SIGNAL_CLEANUP
  | LV_SIGNAL_PRESSED
  | LV_SIGNAL_PRESSING
  | LV_SIGNAL_PRESS_LOST
  | LV_SIGNAL_RELEASED
  | LV_SIGNAL_LONG_PRESS
  | LV_SIGNAL_LONG_PRESS_REP
  | LV_SIGNAL_DRAG_BEGIN
  | LV_SIGNAL_DRAG_END
  | LV_SIGNAL_CHILD_CHG
  | LV_SIGNAL_CORD_CHG
  | LV_SIGNAL_STYLE_CHG
  | LV_SIGNAL_REFR_EXT_SIZE
  deriving DecidableEq, Repr

/-- The draw requests of `lv_design_mode_t`. -/
inductive lv_design_mode_t where
  | LV_DESIGN_DRAW_MAIN
  | LV_DESIGN_DRAW_POST
  | LV_DESIGN_COVER_CHK
  deriving DecidableEq, Repr

/-! ## Collaborators outside `lv_slider.c` -/

/-- Modelled from the spec: `lv_obj_get_width` is not part of `lv_slider.c`;
the width of the inclusive coordinates is `x2 - x1 + 1`, returned as a
`cord_t`. -/
def lv_obj_get_width (obj : lv_obj_t) : Int :=
  wrap16 (obj.cords.x2 - obj.cords.x1 + 1)

/-- Modelled from the spec: `lv_obj_get_height` is not part of `lv_slider.c`;
the height of the inclusive coordinates is `y2 - y1 + 1`, returned as a
`cord_t`. -/
def lv_obj_get_height (obj : lv_obj_t) : Int :=
  wrap16 (obj.cords.y2 - obj.cords.y1 + 1)

/-- Modelled from the spec: `lv_bar_get_value` is the bar collaborator's
`get_value`, the stored current value. -/
def lv_bar_get_value (bar : lv_obj_t) : Int :=
  bar.ext.bar.act_value

/-- Modelled from the spec: `lv_bar_set_value` is the bar collaborator's
`set_value`; it stores the value limited to the range, first capped at
`max_value`, then raised to `min_value`. -/
def lv_bar_set_value (bar : lv_obj_t) (value : Int) : lv_obj_t :=
  let v := if value > bar.ext.bar.max_value then bar.ext.bar.max_value else value
  let v := if v < bar.ext.bar.min_value then bar.ext.bar.min_value else v
  { bar with ext := { bar.ext with bar := { bar.ext.bar with act_value := v } } }

/-- Modelled from the spec: `lv_dispi_get_point` is the pointer collaborator's
`get_point`; the signal parameter carries the pointer position. -/
def lv_dispi_get_point (param : point_t) : point_t :=
  param

/-! ## `lv_slider_create`, `lv_slider_set_action` -/

/-- The slider specific part of `lv_slider_create`: `new_slider` is the
object made by the ancestor `lv_bar_create`; the callback is cleared and the
stored value starts at the range minimum. -/
def lv_slider_create (cords : area_t) (bar : lv_bar_ext_t) : lv_obj_t :=
  { cords := cords, ext := { bar := bar, cb := none, tmp_value := bar.min_value } }

/-- Embedding of `lv_slider_set_action`: install (or clear) the callback. -/
def lv_slider_set_action (slider : lv_obj_t) (cb : Option lv_action_t) : lv_obj_t :=
  { slider with ext := { slider.ext with cb := cb } }

/-! ## `lv_slider_signal` -/

/-- What a call of `lv_slider_signal` leaves behind: the returned validity,
the object, and the callback invocations (the callback and the object it was
handed), in call order. -/
structure SignalResult where
  valid : Bool
  obj : lv_obj_t
  calls : List (lv_action_t × lv_obj_t)
  deriving DecidableEq, Repr

/-- Embedding of `lv_slider_signal`. `valid` is what the ancestor handler
`lv_bar_signal` returned for this signal; `param` is the pointer position
`lv_dispi_get_point` reads. The result is `none` when a division by zero is
evaluated. -/
def lv_slider_signal (valid : Bool) (slider : lv_obj_t) (sign : lv_signal_t)
    (param : point_t) : Option SignalResult :=
  if valid != false then
    let ext := slider.ext
    let w := lv_obj_get_width slider
    let h := lv_obj_get_height slider
    match sign with
    | .LV_SIGNAL_PRESSED =>
      some ⟨valid,
        { slider with ext := { ext with tmp_value := lv_bar_get_value slider } }, []⟩
    | .LV_SIGNAL_PRESSING =>
      let p := lv_dispi_get_point param
      if w > h then
        let px := wrap16 (p.x - (slider.cords.x1 + Int.tdiv h 2))
        match cdiv (wrap32 (px * (ext.bar.max_value - ext.bar.min_value + 1))) (w - h) with
        | none => none
        | some q =>
          let tmp := wrap16 q
          some ⟨valid, lv_bar_set_value slider tmp, []⟩
      else
        let py := wrap16 (p.y - (slider.cords.y1 + Int.tdiv w 2))
        match cdiv (wrap32 (py * (ext.bar.max_value - ext.bar.min_value + 1))) (h - w) with
        | none => none
        | some q =>
          let tmp := wrap16 q
          let tmp := wrap16 (ext.bar.max_value - tmp)
          some ⟨valid, lv_bar_set_value slider tmp, []⟩
    | .LV_SIGNAL_PRESS_LOST =>
      some ⟨valid, lv_bar_set_value slider ext.tmp_value, []⟩
    | .LV_SIGNAL_RELEASED =>
      let s1 : lv_obj_t :=
        { slider with ext := { ext with tmp_value := lv_bar_get_value slider } }
      let s2 := lv_bar_set_value s1 s1.ext.tmp_value
      match s2.ext.cb with
      | some cb => some ⟨valid, s2, [(cb, s2)]⟩
      | none => some ⟨valid, s2, []⟩
    | _ => some ⟨valid, slider, []⟩
  else
    some ⟨valid, slider, []⟩

/-! ## `lv_slider_design` -/

/-- What a call of `lv_slider_design` leaves behind: the returned flag, the
object, the calls of the ancestor design function (the object as the ancestor
saw it, the mask, the mode) and the rectangles handed to `lv_draw_rect`
(area and mask), in call order. -/
structure DesignResult where
  ret : Bool
  obj : lv_obj_t
  anc_calls : List (lv_obj_t × area_t × lv_design_mode_t)
  rects : List (area_t × area_t)
  deriving DecidableEq, Repr

/-- The object with its `bar.act_value` replaced. -/
def set_act_value (slider : lv_obj_t) (v : Int) : lv_obj_t :=
  { slider with ext := { slider.ext with bar := { slider.ext.bar with act_value := v } } }

/-- Embedding of `lv_slider_design`. `ancestor_design_f` is the saved bar
design function, which only observes the object. The result is `none` when a
division by zero is evaluated. -/
def lv_slider_design (ancestor_design_f : lv_obj_t → area_t → lv_design_mode_t → Bool)
    (slider : lv_obj_t) (mask : area_t) (mode : lv_design_mode_t) : Option DesignResult :=
  match mode with
  | .LV_DESIGN_COVER_CHK =>
    some ⟨ancestor_design_f slider mask mode, slider, [(slider, mask, mode)], []⟩
  | .LV_DESIGN_DRAW_MAIN =>
    let ext := slider.ext
    let w := lv_obj_get_width slider
    let h := lv_obj_get_height slider
    let range := wrap16 (ext.bar.max_value - ext.bar.min_value)
    let tmpo : Option Int :=
      if w ≥ h then
        match cdiv (wrap32 (h * range)) w with
        | none => none
        | some q =>
          let knob_value := wrap16 q
          match cdiv (wrap32 ((range - (ext.bar.act_value - ext.bar.min_value)) * knob_value))
              range with
          | none => none
          | some q2 => some (wrap16 q2)
      else
        match cdiv (wrap32 (w * range)) h with
        | none => none
        | some q =>
          let knob_value := wrap16 q
          match cdiv (wrap32 ((range - (ext.bar.act_value - ext.bar.min_value)) * knob_value))
              range with
          | none => none
          | some q2 => some (wrap16 q2)
    match tmpo with
    | none => none
    | some tmp =>
      let s1 := set_act_value slider (wrap16 (ext.bar.act_value + tmp))
      let s2 := set_act_value s1 (wrap16 (s1.ext.bar.act_value - tmp))
      let knob_area := slider.cords
      let knobo : Option area_t :=
        if w ≥ h then
          match cdiv (wrap32 ((w - h) * s2.ext.bar.act_value)) range with
          | none => none
          | some q =>
            let x2 := wrap16 q
            let x2 := wrap16 (x2 + knob_area.x1)
            let x2 := wrap16 (x2 + h)
            some { knob_area with x2 := x2, x1 := wrap16 (x2 - h) }
        else
          match cdiv (wrap32 ((h - w) * s2.ext.bar.act_value)) range with
          | none => none
          | some q =>
            let y1 := wrap16 q
            let y1 := wrap16 (knob_area.y2 - y1)
            let y1 := wrap16 (y1 - w)
            some { knob_area with y1 := y1, y2 := wrap16 (y1 + w) }
      match knobo with
      | none => none
      | some knob => some ⟨true, s2, [(s1, mask, mode)], [(knob, mask)]⟩
  | .LV_DESIGN_DRAW_POST =>
    some ⟨true, slider, [], []⟩


/-! ## Signal sequences -/

/-- The drag signals (`LV_SIGNAL_PRESSING`) for a list of pointer positions. -/
def drags (pts : List point_t) : List (lv_signal_t × point_t) :=
  pts.map fun p => (lv_signal_t.LV_SIGNAL_PRESSING, p)

/-- Dispatch a sequence of signals to `lv_slider_signal` in order, the
ancestor handler reporting the object valid each time. The result is the
final object and all callback invocations, or `none` when one of the calls
evaluates a division by zero. -/
def lv_slider_run (slider : lv_obj_t) :
    List (lv_signal_t × point_t) → Option (lv_obj_t × List (lv_action_t × lv_obj_t))
  | [] => some (slider, [])
  | (sign, param) :: rest =>
    match lv_slider_signal true slider sign param with
    | none => none
    | some r =>
      match lv_slider_run r.obj rest with
      | none => none
      | some (o, cs) => some (o, r.calls ++ cs)

/-- The members a drag never writes: coordinates, range, callback and the
value stored at press time agree. -/
def Frame (a b : lv_obj_t) : Prop :=
  a.cords = b.cords ∧ a.ext.bar.min_value = b.ext.bar.min_value ∧
  a.ext.bar.max_value = b.ext.bar.max_value ∧ a.ext.cb = b.ext.cb ∧
  a.ext.tmp_value = b.ext.tmp_value

instance (a b : lv_obj_t) : Decidable (Frame a b) := by
  unfold Frame; infer_instance

/-- The range invariant of the data model: `min ≤ current_value ≤ max`. -/
def InRange (s : lv_obj_t) : Prop :=
  s.ext.bar.min_value ≤ s.ext.bar.act_value ∧ s.ext.bar.act_value ≤ s.ext.bar.max_value

instance (s : lv_obj_t) : Decidable (InRange s) := by
  unfold InRange; infer_instance

/-- The current value is one the bar setter stores unchanged. -/
def Stable (s : lv_obj_t) : Prop :=
  (lv_bar_set_value s s.ext.bar.act_value).ext.bar.act_value = s.ext.bar.act_value

instance (s : lv_obj_t) : Decidable (Stable s) := by
  unfold Stable; infer_instance

/-- The value of `tmp` that the `LV_SIGNAL_PRESSING` case of
`lv_slider_signal` hands to `lv_bar_set_value` (the same expressions as in
`lv_slider_signal`, named for the proofs). -/
def drag_tmp (slider : lv_obj_t) (param : point_t) : Option Int :=
  let ext := slider.ext
  let w := lv_obj_get_width slider
  let h := lv_obj_get_height slider
  let p := lv_dispi_get_point param
  if w > h then
    let px := wrap16 (p.x - (slider.cords.x1 + Int.tdiv h 2))
    (cdiv (wrap32 (px * (ext.bar.max_value - ext.bar.min_value + 1))) (w - h)).map wrap16
  else
    let py := wrap16 (p.y - (slider.cords.y1 + Int.tdiv w 2))
    (cdiv (wrap32 (py * (ext.bar.max_value - ext.bar.min_value + 1))) (h - w)).map
      fun q => wrap16 (ext.bar.max_value - wrap16 q)

/-- The value of `tmp` that the main-draw branch of `lv_slider_design` adds
to `bar.act_value` before the ancestor draws (the same expressions as in
`lv_slider_design`, named for the proofs). -/
def design_tmp (slider : lv_obj_t) : Option Int :=
  let ext := slider.ext
  let w := lv_obj_get_width slider
  let h := lv_obj_get_height slider
  let range := wrap16 (ext.bar.max_value - ext.bar.min_value)
  if w ≥ h then
    match cdiv (wrap32 (h * range)) w with
    | none => none
    | some q =>
      let knob_value := wrap16 q
      match cdiv (wrap32 ((range - (ext.bar.act_value - ext.bar.min_value)) * knob_value))
          range with
      | none => none
      | some q2 => some (wrap16 q2)
  else
    match cdiv (wrap32 (w * range)) h with
    | none => none
    | some q =>
      let knob_value := wrap16 q
      match cdiv (wrap32 ((range - (ext.bar.act_value - ext.bar.min_value)) * knob_value))
          range with
      | none => none
      | some q2 => some (wrap16 q2)

/-- The knob rectangle that the main-draw branch of `lv_slider_design`
computes from the object's coordinates and the given `act_value` (the same
expressions as in `lv_slider_design`, named for the proofs). -/
def design_knob (slider : lv_obj_t) (act_value : Int) : Option area_t :=
  let w := lv_obj_get_width slider
  let h := lv_obj_get_height slider
  let range := wrap16 (slider.ext.bar.max_value - slider.ext.bar.min_value)
  let knob_area := slider.cords
  if w ≥ h then
    match cdiv (wrap32 ((w - h) * act_value)) range with
    | none => none
    | some q =>
      let x2 := wrap16 q
      let x2 := wrap16 (x2 + knob_area.x1)
      let x2 := wrap16 (x2 + h)
      some { knob_area with x2 := x2, x1 := wrap16 (x2 - h) }
  else
    match cdiv (wrap32 ((h - w) * act_value)) range with
    | none => none
    | some q =>
      let y1 := wrap16 q
      let y1 := wrap16 (knob_area.y2 - y1)
      let y1 := wrap16 (y1 - w)
      some { knob_area with y1 := y1, y2 := wrap16 (y1 + w) }

/-- No 16-bit store of the drag computation changes a value: the shifted
pointer coordinate, the scaled quotient and, on the branch that inverts it,
`max_value` minus the quotient all fit `int16_t`. -/
def drag_exact (slider : lv_obj_t) (param : point_t) : Prop :=
  let ext := slider.ext
  let w := lv_obj_get_width slider
  let h := lv_obj_get_height slider
  let p := lv_dispi_get_point param
  if w > h then
    isInt16 (p.x - (slider.cords.x1 + Int.tdiv h 2)) ∧
    isInt16 (Int.tdiv ((p.x - (slider.cords.x1 + Int.tdiv h 2))
      * (ext.bar.max_value - ext.bar.min_value + 1)) (w - h))
  else
    isInt16 (p.y - (slider.cords.y1 + Int.tdiv w 2)) ∧
    isInt16 (Int.tdiv ((p.y - (slider.cords.y1 + Int.tdiv w 2))
      * (ext.bar.max_value - ext.bar.min_value + 1)) (h - w)) ∧
    isInt16 (ext.bar.max_value - Int.tdiv ((p.y - (slider.cords.y1 + Int.tdiv w 2))
      * (ext.bar.max_value - ext.bar.min_value + 1)) (h - w))

instance (slider : lv_obj_t) (param : point_t) : Decidable (drag_exact slider param) := by
  unfold drag_exact; dsimp only; infer_instance

/-! ## Style provider: `lv_sliders_get`, `lv_sliders_init` -/

/-- Modelled from the spec: `lv_objs_t`, the base style, is declared outside
`lv_slider.c`; of its members the slider writes the color and the opacity. -/
structure lv_objs_t where
  color : Nat
  opa : Nat
  deriving DecidableEq, Repr

/-- Modelled from the spec: `lv_rects_t`, the rectangle style, is declared
outside `lv_slider.c`; the slider writes the base color and opacity, the
gradient color and the corner radius. -/
structure lv_rects_t where
  base : lv_objs_t
  gcolor : Nat
  radius : Int
  deriving DecidableEq, Repr

/-- Modelled from the spec: `lv_bars_t`, the inherited bar style, is declared
outside `lv_slider.c`; it holds the background and the indicator style. -/
structure lv_bars_t where
  bg : lv_rects_t
  indic : lv_rects_t
  deriving DecidableEq, Repr

/-- The slider style, `lv_sliders_t`: the bar style and the knob style. -/
structure lv_sliders_t where
  bar : lv_bars_t
  knob : lv_rects_t
  deriving DecidableEq, Repr

/-- The style identifiers, `lv_sliders_builtin_t`: `LV_SLIDERS_DEF`, and any
other value an enum variable can carry, which reaches `default:`. -/
inductive lv_sliders_builtin_t where
  | LV_SLIDERS_DEF
  | other (code : Nat)
  deriving DecidableEq, Repr

/-- The constants and the built-in styles `lv_sliders_init` reads, all
declared outside `lv_slider.c`: `bars_def` is what `lv_bars_get(LV_BARS_DEF,
...)` copies out, `rects_plain` what `lv_rects_get(LV_RECTS_PLAIN, ...)`
copies out. -/
structure StyleEnv where
  LV_RECT_CIRCLE : Int
  COLOR_SILVER : Nat
  COLOR_GRAY : Nat
  OPA_70 : Nat
  bars_def : lv_bars_t
  rects_plain : lv_rects_t
  deriving DecidableEq, Repr

/-- The static storage of the style provider: the default style
`lv_sliders_def`, the flag `style_inited` of `lv_sliders_get`, and a count of
the calls of `lv_sliders_init` so far. -/
structure StyleState where
  lv_sliders_def : lv_sliders_t
  style_inited : Bool
  init_runs : Nat
  deriving DecidableEq, Repr

/-- The static storage at program start: zero-filled style, flag `false`,
no call of `lv_sliders_init` yet. -/
def style_state_start : StyleState :=
  { lv_sliders_def :=
      { bar := { bg := ⟨⟨0, 0⟩, 0, 0⟩, indic := ⟨⟨0, 0⟩, 0, 0⟩ }, knob := ⟨⟨0, 0⟩, 0, 0⟩ },
    style_inited := false,
    init_runs := 0 }

/-- Embedding of `lv_sliders_init`: fill `lv_sliders_def`, member by member
in the order of the source. -/
def lv_sliders_init (env : StyleEnv) (st : StyleState) : StyleState :=
  let d := st.lv_sliders_def
  let d := { d with bar := env.bars_def }
  let d := { d with bar := { d.bar with indic := { d.bar.indic with radius := env.LV_RECT_CIRCLE } } }
  let d := { d with bar := { d.bar with bg := { d.bar.bg with radius := env.LV_RECT_CIRCLE } } }
  let d := { d with knob := env.rects_plain }
  let d := { d with knob := { d.knob with base := { d.knob.base with color := env.COLOR_SILVER } } }
  let d := { d with knob := { d.knob with gcolor := env.COLOR_GRAY } }
  let d := { d with knob := { d.knob with base := { d.knob.base with opa := env.OPA_70 } } }
  let d := { d with knob := { d.knob with radius := d.bar.indic.radius } }
  { st with lv_sliders_def := d, init_runs := st.init_runs + 1 }

/-- The static style objects a returned `lv_sliders_t *` can point to. -/
inductive style_ptr where
  | addr_lv_sliders_def
  deriving DecidableEq, Repr

/-- What a call of `lv_sliders_get` hands back: the returned pointer and,
for a non-`NULL` `copy`, the destination and the value `memcpy` wrote. -/
structure StyleGetResult where
  style_p : style_ptr
  copied : Option (Nat × lv_sliders_t)
  deriving DecidableEq, Repr

/-- Embedding of `lv_sliders_get`: `copy` is `none` for `NULL`, otherwise
the identifier of the caller's storage. -/
def lv_sliders_get (env : StyleEnv) (st : StyleState) (style : lv_sliders_builtin_t)
    (copy : Option Nat) : StyleState × StyleGetResult :=
  let st := if st.style_inited == false then
      { lv_sliders_init env st with style_inited := true }
    else st
  let style_p :=
    match style with
    | .LV_SLIDERS_DEF => style_ptr.addr_lv_sliders_def
    | _ => style_ptr.addr_lv_sliders_def
  let target :=
    match style_p with
    | .addr_lv_sliders_def => st.lv_sliders_def
  (st, ⟨style_p, copy.map fun dst => (dst, target)⟩)

/-- A sequence of calls of `lv_sliders_get`, in order: the final static
storage and the results of the calls. -/
def lv_sliders_get_seq (env : StyleEnv) (st : StyleState) :
    List (lv_sliders_builtin_t × Option Nat) → StyleState × List StyleGetResult
  | [] => (st, [])
  | (style, copy) :: rest =>
    let r := lv_sliders_get env st style copy
    let rs := lv_sliders_get_seq env r.1 rest
    (rs.1, r.2 :: rs.2)

/-! ## Properties -/

/-! ### Machine integer facts -/

theorem wrap16_of_int16 (x : Int) (h1 : -32768 ≤ x) (h2 : x ≤ 32767) : wrap16 x = x := by
  unfold wrap16; omega

theorem wrap16_bounds (x : Int) : -32768 ≤ wrap16 x ∧ wrap16 x ≤ 32767 := by
  unfold wrap16; omega

theorem wrap32_of_fits (x : Int) (h1 : -2147483648 ≤ x) (h2 : x ≤ 2147483647) :
    wrap32 x = x := by
  unfold wrap32; omega

/-- Adding `t` and subtracting it again, each with 16-bit wrap-around, gives
back the narrowed start value. -/
theorem wrap16_add_sub (a t : Int) : wrap16 (wrap16 (a + t) - t) = wrap16 a := by
  unfold wrap16; omega

theorem cdiv_of_pos (a b : Int) (ha : 0 ≤ a) (ha2 : a ≤ 2147483647) (hb : 0 < b) :
    cdiv a b = some (a / b) := by
  unfold cdiv
  rw [if_neg (by omega), Int.tdiv_eq_ediv ha (by omega)]
  have h0 : 0 ≤ a / b := Int.ediv_nonneg ha (by omega)
  have h1 : a / b ≤ a := Int.ediv_le_self b ha
  rw [wrap32_of_fits _ (by omega) (by omega)]

/-! ### The draw routine in pieces -/

/-- The main-draw branch of `lv_slider_design` in terms of `design_tmp` and
`design_knob`. -/
theorem design_main_eq (anc : lv_obj_t → area_t → lv_design_mode_t → Bool) (s : lv_obj_t)
    (mask : area_t) :
    lv_slider_design anc s mask .LV_DESIGN_DRAW_MAIN =
      match design_tmp s with
      | none => none
      | some tmp =>
        match design_knob s (wrap16 (wrap16 (s.ext.bar.act_value + tmp) - tmp)) with
        | none => none
        | some knob =>
          some ⟨true,
            set_act_value (set_act_value s (wrap16 (s.ext.bar.act_value + tmp)))
              (wrap16 (wrap16 (s.ext.bar.act_value + tmp) - tmp)),
            [(set_act_value s (wrap16 (s.ext.bar.act_value + tmp)), mask,
              lv_design_mode_t.LV_DESIGN_DRAW_MAIN)],
            [(knob, mask)]⟩ := by
  rfl

/-! ### Frame and bar setter facts -/

theorem frame_refl (s : lv_obj_t) : Frame s s := ⟨rfl, rfl, rfl, rfl, rfl⟩

theorem frame_trans {a b c : lv_obj_t} (h1 : Frame a b) (h2 : Frame b c) : Frame a c := by
  obtain ⟨a1, a2, a3, a4, a5⟩ := h1
  obtain ⟨b1, b2, b3, b4, b5⟩ := h2
  exact ⟨a1.trans b1, a2.trans b2, a3.trans b3, a4.trans b4, a5.trans b5⟩

theorem frame_width {a b : lv_obj_t} (h : Frame a b) :
    lv_obj_get_width a = lv_obj_get_width b := by
  unfold lv_obj_get_width; rw [h.1]

theorem frame_height {a b : lv_obj_t} (h : Frame a b) :
    lv_obj_get_height a = lv_obj_get_height b := by
  unfold lv_obj_get_height; rw [h.1]

theorem set_value_frame (s : lv_obj_t) (v : Int) : Frame (lv_bar_set_value s v) s :=
  ⟨rfl, rfl, rfl, rfl, rfl⟩

/-- The value `lv_bar_set_value` stores lies in the range when `min ≤ max`. -/
theorem set_value_in_range (s : lv_obj_t) (v : Int)
    (h : s.ext.bar.min_value ≤ s.ext.bar.max_value) : InRange (lv_bar_set_value s v) := by
  unfold InRange lv_bar_set_value
  dsimp only
  split <;> split <;> omega

/-- A value inside the range is stored unchanged. -/
theorem set_value_of_in_range (s : lv_obj_t) (v : Int)
    (h1 : s.ext.bar.min_value ≤ v) (h2 : v ≤ s.ext.bar.max_value) :
    (lv_bar_set_value s v).ext.bar.act_value = v := by
  unfold lv_bar_set_value
  dsimp only
  split <;> split <;> omega

/-- Storing a value a second time changes nothing. -/
theorem set_value_idem (s : lv_obj_t) (v : Int) :
    (lv_bar_set_value (lv_bar_set_value s v) (lv_bar_set_value s v).ext.bar.act_value)
      = lv_bar_set_value s v := by
  unfold lv_bar_set_value
  dsimp only
  congr 3
  split_ifs <;> omega

/-- The drag case of `lv_slider_signal` stores `drag_tmp` through the bar
setter. -/
theorem signal_pressing (s : lv_obj_t) (p : point_t) :
    lv_slider_signal true s .LV_SIGNAL_PRESSING p =
      (drag_tmp s p).map fun t => ⟨true, lv_bar_set_value s t, []⟩ := by
  simp only [lv_slider_signal, drag_tmp]
  split
  · split
    · split <;> simp_all
    · split <;> simp_all
  · simp at *

theorem pressing_some (s : lv_obj_t) (p : point_t) (r : SignalResult)
    (h : lv_slider_signal true s .LV_SIGNAL_PRESSING p = some r) :
    r.valid = true ∧ r.calls = [] ∧ ∃ v, r.obj = lv_bar_set_value s v := by
  simp only [lv_slider_signal] at h
  split at h
  · split at h
    · split at h
      · exact absurd h (by simp)
      · cases h
        exact ⟨rfl, rfl, _, rfl⟩
    · split at h
      · exact absurd h (by simp)
      · cases h
        exact ⟨rfl, rfl, _, rfl⟩
  · simp at *

theorem pressing_total (s : lv_obj_t) (p : point_t)
    (hwh : lv_obj_get_width s ≠ lv_obj_get_height s) :
    ∃ r, lv_slider_signal true s .LV_SIGNAL_PRESSING p = some r := by
  simp only [lv_slider_signal, cdiv]
  by_cases h : lv_obj_get_width s > lv_obj_get_height s
  · have : lv_obj_get_width s - lv_obj_get_height s ≠ 0 := by omega
    simp [h, this]
  · have : lv_obj_get_height s - lv_obj_get_width s ≠ 0 := by omega
    simp [h, this]

theorem run_nil (s : lv_obj_t) : lv_slider_run s [] = some (s, []) := rfl

theorem run_cons (s : lv_obj_t) (sign : lv_signal_t) (p : point_t)
    (rest : List (lv_signal_t × point_t)) :
    lv_slider_run s ((sign, p) :: rest) =
      match lv_slider_signal true s sign p with
      | none => none
      | some r =>
        match lv_slider_run r.obj rest with
        | none => none
        | some (o, cs) => some (o, r.calls ++ cs) := rfl

/-- A run of drags followed by further signals, when it returns, passes
through an intermediate object that differs from the start only in
`act_value`, with no callback invoked by the drags. -/
theorem run_drags_append (pts : List point_t) (tail : List (lv_signal_t × point_t))
    (s : lv_obj_t) (res : lv_obj_t × List (lv_action_t × lv_obj_t))
    (h : lv_slider_run s (drags pts ++ tail) = some res) :
    ∃ m, Frame m s ∧ (pts ≠ [] → ∃ v, m = lv_bar_set_value m v) ∧ (pts = [] → m = s) ∧
      lv_slider_run m tail = some res := by
  induction pts generalizing s with
  | nil => exact ⟨s, frame_refl s, by simp, by simp, h⟩
  | cons p ps ih =>
    simp only [drags, List.map_cons, List.cons_append] at h
    rw [run_cons] at h
    split at h
    · exact absurd h (by simp)
    · rename_i r hr
      obtain ⟨_, hc, v, hv⟩ := pressing_some s p r hr
      split at h
      · exact absurd h (by simp)
      · rename_i o cs hrest
        rw [hc] at h
        simp only [List.nil_append] at h
        have h2 : lv_slider_run r.obj (drags ps ++ tail) = some res := by
          rw [← h]; exact hrest
        obtain ⟨m, hf, hfix, hnil, hm⟩ := ih r.obj h2
        refine ⟨m, frame_trans hf (hv ▸ set_value_frame s v), ?_, by simp, hm⟩
        intro _
        by_cases hps : ps = []
        · rw [hnil hps, hv]
          exact ⟨_, (set_value_idem s v).symm⟩
        · exact hfix hps

/-- A run of drags followed by further signals returns whenever the tail
returns from every object with the same frame, on a widget whose width
differs from its height. -/
theorem run_drags_total (pts : List point_t) (tail : List (lv_signal_t × point_t))
    (s : lv_obj_t) (hwh : lv_obj_get_width s ≠ lv_obj_get_height s)
    (ht : ∀ m, Frame m s → ∃ res, lv_slider_run m tail = some res) :
    ∃ res, lv_slider_run s (drags pts ++ tail) = some res := by
  induction pts generalizing s with
  | nil => exact ht s (frame_refl s)
  | cons p ps ih =>
    simp only [drags, List.map_cons, List.cons_append]
    rw [run_cons]
    obtain ⟨r, hr⟩ := pressing_total s p hwh
    obtain ⟨_, hc, v, hv⟩ := pressing_some s p r hr
    have hf : Frame r.obj s := hv ▸ set_value_frame s v
    have hwh2 : lv_obj_get_width r.obj ≠ lv_obj_get_height r.obj := by
      rw [frame_width hf, frame_height hf]; exact hwh
    obtain ⟨res, hres⟩ := ih r.obj hwh2 (fun m hm => ht m (frame_trans hm hf))
    have hres2 : lv_slider_run r.obj (List.map (fun p => (lv_signal_t.LV_SIGNAL_PRESSING, p)) ps ++ tail)
        = some res := hres
    rw [hr]
    simp only [hres2]
    exact ⟨_, rfl⟩

/-! ### Press, drag, cancel -/

theorem signal_pressed (s : lv_obj_t) (p : point_t) :
    lv_slider_signal true s .LV_SIGNAL_PRESSED p =
      some ⟨true, { s with ext := { s.ext with tmp_value := s.ext.bar.act_value } }, []⟩ := rfl

theorem signal_press_lost (s : lv_obj_t) (p : point_t) :
    lv_slider_signal true s .LV_SIGNAL_PRESS_LOST p =
      some ⟨true, lv_bar_set_value s s.ext.tmp_value, []⟩ := rfl

theorem run_press_lost (s : lv_obj_t) (p : point_t) :
    lv_slider_run s [(.LV_SIGNAL_PRESS_LOST, p)] =
      some (lv_bar_set_value s s.ext.tmp_value, []) := rfl

/-- C1: on a slider with `min ≤ current_value ≤ max`, handling
`LV_SIGNAL_PRESSED`, then any number of drags at arbitrary pointer positions,
then `LV_SIGNAL_PRESS_LOST` leaves `current_value` equal to the value it had
when the press was handled and invokes no callback. The sequence is handled
to the end whenever the width differs from the height or there is no drag. -/
theorem press_drags_press_lost_restores (s : lv_obj_t) (p0 pl : point_t) (pts : List point_t)
    (hin : InRange s) :
    ((lv_obj_get_width s ≠ lv_obj_get_height s ∨ pts = []) →
      ∃ res, lv_slider_run s ((lv_signal_t.LV_SIGNAL_PRESSED, p0) ::
        (drags pts ++ [(lv_signal_t.LV_SIGNAL_PRESS_LOST, pl)])) = some res) ∧
    ∀ res, lv_slider_run s ((lv_signal_t.LV_SIGNAL_PRESSED, p0) ::
        (drags pts ++ [(lv_signal_t.LV_SIGNAL_PRESS_LOST, pl)])) = some res →
      res.1.ext.bar.act_value = s.ext.bar.act_value ∧ res.2 = [] := by
  constructor
  · intro hcase
    rw [run_cons, signal_pressed]
    dsimp only
    rcases hcase with hwh | hnil
    · obtain ⟨res, hres⟩ := run_drags_total pts [(lv_signal_t.LV_SIGNAL_PRESS_LOST, pl)]
        { s with ext := { s.ext with tmp_value := s.ext.bar.act_value } } hwh
        (fun m _ => ⟨_, run_press_lost m pl⟩)
      rw [hres]
      exact ⟨_, rfl⟩
    · subst hnil
      exact ⟨_, rfl⟩
  · intro res h
    rw [run_cons, signal_pressed] at h
    dsimp only at h
    split at h
    · exact absurd h (by simp)
    · rename_i o cs hrest
      obtain ⟨m, hf, _, _, hm⟩ := run_drags_append pts _ _ _ hrest
      rw [run_press_lost] at hm
      obtain ⟨_, hmin, hmax, _, htmp⟩ := hf
      dsimp only at hmin hmax htmp
      cases h
      cases hm
      refine ⟨?_, rfl⟩
      rw [htmp]
      exact set_value_of_in_range m _ (hmin ▸ hin.1) (hmax ▸ hin.2)

theorem press_drags_press_lost_restores_witness :
    InRange (lv_slider_create ⟨0, 0, 199, 19⟩ ⟨30, 0, 100⟩) ∧
    ∃ res, lv_slider_run (lv_slider_create ⟨0, 0, 199, 19⟩ ⟨30, 0, 100⟩)
        ((lv_signal_t.LV_SIGNAL_PRESSED, ⟨40, 5⟩) ::
          (drags [⟨90, 5⟩, ⟨500, -3⟩] ++ [(lv_signal_t.LV_SIGNAL_PRESS_LOST, ⟨500, -3⟩)]))
          = some res ∧
      res.1.ext.bar.act_value = 30 ∧ res.2 = [] := by
  have h := press_drags_press_lost_restores (lv_slider_create ⟨0, 0, 199, 19⟩ ⟨30, 0, 100⟩)
    ⟨40, 5⟩ ⟨500, -3⟩ [⟨90, 5⟩, ⟨500, -3⟩] (by decide)
  obtain ⟨res, hres⟩ := h.1 (Or.inl (by decide))
  exact ⟨by decide, res, hres, h.2 res hres⟩

/-! ### Press, drag, release -/

theorem stable_of_in_range (s : lv_obj_t) (h : InRange s) : Stable s :=
  set_value_of_in_range s _ h.1 h.2

theorem stable_set_value (s : lv_obj_t) (v : Int) : Stable (lv_bar_set_value s v) := by
  unfold Stable
  rw [set_value_idem]

theorem signal_released (s : lv_obj_t) (p : point_t) :
    lv_slider_signal true s .LV_SIGNAL_RELEASED p =
      some ⟨true,
        lv_bar_set_value { s with ext := { s.ext with tmp_value := s.ext.bar.act_value } }
          s.ext.bar.act_value,
        match s.ext.cb with
        | some cb => [(cb,
            lv_bar_set_value { s with ext := { s.ext with tmp_value := s.ext.bar.act_value } }
              s.ext.bar.act_value)]
        | none => []⟩ := by
  simp only [lv_slider_signal, lv_bar_get_value]
  cases hcb : s.ext.cb <;> simp [lv_bar_set_value, hcb]

/-- A press, a drag or a cancel never invokes the callback, whatever the
ancestor handler reported. -/
theorem no_callback_outside_release (valid : Bool) (s : lv_obj_t) (sign : lv_signal_t)
    (p : point_t) (r : SignalResult)
    (hs : sign = .LV_SIGNAL_PRESSED ∨ sign = .LV_SIGNAL_PRESSING ∨ sign = .LV_SIGNAL_PRESS_LOST)
    (h : lv_slider_signal valid s sign p = some r) : r.calls = [] := by
  cases valid
  · simp [lv_slider_signal] at h
    rw [← h]
  · rcases hs with hs | hs | hs <;> subst hs
    · rw [signal_pressed] at h; cases h; rfl
    · exact (pressing_some s p r h).2.1
    · rw [signal_press_lost] at h; cases h; rfl

/-- A run of presses and drags, when it returns, invokes no callback, keeps
coordinates, range and callback, and ends in a stable value if it started in
one or contained a drag. -/
theorem run_press_drag (evs : List (lv_signal_t × point_t)) (s : lv_obj_t)
    (res : lv_obj_t × List (lv_action_t × lv_obj_t))
    (hev : ∀ e ∈ evs, e.1 = lv_signal_t.LV_SIGNAL_PRESSED ∨ e.1 = lv_signal_t.LV_SIGNAL_PRESSING)
    (h : lv_slider_run s evs = some res) :
    res.2 = [] ∧ res.1.cords = s.cords ∧ res.1.ext.cb = s.ext.cb ∧
    res.1.ext.bar.min_value = s.ext.bar.min_value ∧
    res.1.ext.bar.max_value = s.ext.bar.max_value ∧
    ((Stable s ∨ ∃ e ∈ evs, e.1 = lv_signal_t.LV_SIGNAL_PRESSING) → Stable res.1) := by
  induction evs generalizing s res with
  | nil =>
    rw [run_nil] at h
    cases h
    exact ⟨rfl, rfl, rfl, rfl, rfl, fun hh => hh.elim id (by simp)⟩
  | cons e es ih =>
    obtain ⟨sign, p⟩ := e
    rw [run_cons] at h
    split at h
    · exact absurd h (by simp)
    · rename_i r hr
      split at h
      · exact absurd h (by simp)
      · rename_i o cs hrest
        cases h
        have hes : ∀ e ∈ es, e.1 = lv_signal_t.LV_SIGNAL_PRESSED ∨
            e.1 = lv_signal_t.LV_SIGNAL_PRESSING := fun e he => hev e (List.mem_cons_of_mem _ he)
        obtain ⟨i1, i2, i3, i4, i5, i6⟩ := ih r.obj (o, cs) hes hrest
        dsimp only at i1 i2 i3 i4 i5 i6 ⊢
        rcases hev (sign, p) (List.mem_cons_self _ _) with hs | hs
        · dsimp only at hs
          subst hs
          rw [signal_pressed] at hr
          cases hr
          refine ⟨by simp [i1], i2, i3, i4, i5, ?_⟩
          intro hh
          apply i6
          rcases hh with hst | ⟨e, he, hep⟩
          · exact Or.inl hst
          · rcases List.mem_cons.1 he with rfl | he
            · simp at hep
            · exact Or.inr ⟨e, he, hep⟩
        · dsimp only at hs
          subst hs
          obtain ⟨_, hc, v, hv⟩ := pressing_some s p r hr
          rw [hv] at i2 i3 i4 i5 i6
          refine ⟨by simp [i1, hc], i2, i3, i4, i5, ?_⟩
          intro _
          exact i6 (Or.inl (stable_set_value s v))

/-- A run of presses and drags returns on a widget whose width differs from
its height. -/
theorem run_press_drag_total (evs : List (lv_signal_t × point_t)) (s : lv_obj_t)
    (hev : ∀ e ∈ evs, e.1 = lv_signal_t.LV_SIGNAL_PRESSED ∨ e.1 = lv_signal_t.LV_SIGNAL_PRESSING)
    (hwh : lv_obj_get_width s ≠ lv_obj_get_height s) :
    ∃ res, lv_slider_run s evs = some res := by
  induction evs generalizing s with
  | nil => exact ⟨_, rfl⟩
  | cons e es ih =>
    obtain ⟨sign, p⟩ := e
    have hes : ∀ e ∈ es, e.1 = lv_signal_t.LV_SIGNAL_PRESSED ∨
        e.1 = lv_signal_t.LV_SIGNAL_PRESSING := fun e he => hev e (List.mem_cons_of_mem _ he)
    rw [run_cons]
    rcases hev (sign, p) (List.mem_cons_self _ _) with hs | hs
    · dsimp only at hs
      subst hs
      rw [signal_pressed]
      dsimp only
      obtain ⟨res, hres⟩ := ih { s with ext := { s.ext with tmp_value := s.ext.bar.act_value } }
        hes hwh
      rw [hres]
      exact ⟨_, rfl⟩
    · dsimp only at hs
      subst hs
      obtain ⟨r, hr⟩ := pressing_total s p hwh
      obtain ⟨_, hc, v, hv⟩ := pressing_some s p r hr
      have hf : Frame r.obj s := hv ▸ set_value_frame s v
      have hwh2 : lv_obj_get_width r.obj ≠ lv_obj_get_height r.obj := by
        rw [frame_width hf, frame_height hf]; exact hwh
      obtain ⟨res, hres⟩ := ih r.obj hes hwh2
      rw [hr]
      dsimp only
      rw [hres]
      exact ⟨_, rfl⟩

/-- C2: after any sequence of presses and drags on any slider, handling
`LV_SIGNAL_RELEASED` leaves `current_value` at its last dragged value (the
value is the one a drag stored, or the slider started with
`min ≤ current_value ≤ max`), sets `tmp_value` equal to `current_value`, and
invokes the callback installed by `lv_slider_set_action` exactly once, or not
at all when none is installed; the presses and drags invoke no callback, and
no press, drag or cancel ever does. The presses and drags are handled to the
end whenever the width differs from the height. -/
theorem release_commits_value (s : lv_obj_t) (cb : Option lv_action_t)
    (evs : List (lv_signal_t × point_t)) (p : point_t)
    (hev : ∀ e ∈ evs, e.1 = lv_signal_t.LV_SIGNAL_PRESSED ∨ e.1 = lv_signal_t.LV_SIGNAL_PRESSING)
    (hfix : InRange s ∨ ∃ e ∈ evs, e.1 = lv_signal_t.LV_SIGNAL_PRESSING) :
    (lv_obj_get_width s ≠ lv_obj_get_height s →
      ∃ res, lv_slider_run (lv_slider_set_action s cb) evs = some res) ∧
    (∀ res, lv_slider_run (lv_slider_set_action s cb) evs = some res →
      res.2 = [] ∧
      ∃ r, lv_slider_signal true res.1 lv_signal_t.LV_SIGNAL_RELEASED p = some r ∧
        r.valid = true ∧
        r.obj.ext.bar.act_value = res.1.ext.bar.act_value ∧
        r.obj.ext.tmp_value = r.obj.ext.bar.act_value ∧
        r.calls = (match cb with
          | some a => [(a, r.obj)]
          | none => [])) ∧
    (∀ (valid : Bool) (s1 : lv_obj_t) (sign : lv_signal_t) (p1 : point_t) (r : SignalResult),
      (sign = lv_signal_t.LV_SIGNAL_PRESSED ∨ sign = lv_signal_t.LV_SIGNAL_PRESSING ∨
        sign = lv_signal_t.LV_SIGNAL_PRESS_LOST) →
      lv_slider_signal valid s1 sign p1 = some r → r.calls = []) := by
  refine ⟨fun hwh => run_press_drag_total evs _ hev hwh, ?_,
    fun valid s1 sign p1 r hs h => no_callback_outside_release valid s1 sign p1 r hs h⟩
  intro res hres
  obtain ⟨h1, _, h3, _, _, h6⟩ := run_press_drag evs _ res hev hres
  have hst : Stable res.1 := h6 (hfix.imp (fun hin => stable_of_in_range _ hin) id)
  refine ⟨h1, _, signal_released res.1 p, rfl, ?_, ?_, ?_⟩
  · exact hst
  · exact hst.symm
  · rw [h3]
    rfl

theorem release_commits_value_witness :
    ∃ res, lv_slider_run
        (lv_slider_set_action (lv_slider_create ⟨0, 0, 199, 19⟩ ⟨0, 0, 100⟩) (some 7))
        [(lv_signal_t.LV_SIGNAL_PRESSED, ⟨10, 5⟩), (lv_signal_t.LV_SIGNAL_PRESSING, ⟨100, 5⟩)]
          = some res ∧
      res.2 = [] ∧
      ∃ r, lv_slider_signal true res.1 lv_signal_t.LV_SIGNAL_RELEASED ⟨100, 5⟩ = some r ∧
        r.valid = true ∧
        r.obj.ext.bar.act_value = res.1.ext.bar.act_value ∧
        r.obj.ext.tmp_value = r.obj.ext.bar.act_value ∧
        r.calls = [(7, r.obj)] := by
  have h := release_commits_value (lv_slider_create ⟨0, 0, 199, 19⟩ ⟨0, 0, 100⟩) (some 7)
    [(lv_signal_t.LV_SIGNAL_PRESSED, ⟨10, 5⟩), (lv_signal_t.LV_SIGNAL_PRESSING, ⟨100, 5⟩)]
    ⟨100, 5⟩ (by decide) (Or.inl (by decide))
  obtain ⟨res, hres⟩ := h.1 (by decide)
  exact ⟨res, hres, h.2.1 res hres⟩

/-! ### Range of the dragged value -/

/-- A non-empty run of drags returns, and ends with the value in the range,
on a slider with `min ≤ max` whose width differs from its height. -/
theorem run_drags_in_range (pts : List point_t) (s : lv_obj_t) (hne : pts ≠ [])
    (hmm : s.ext.bar.min_value ≤ s.ext.bar.max_value)
    (hwh : lv_obj_get_width s ≠ lv_obj_get_height s) :
    ∃ res, lv_slider_run s (drags pts) = some res ∧ InRange res.1 := by
  obtain ⟨res, hres⟩ := run_drags_total pts [] s hwh (fun m _ => ⟨_, rfl⟩)
  obtain ⟨m, hf, hfix, _, hm⟩ := run_drags_append pts [] s res hres
  rw [List.append_nil] at hres
  refine ⟨res, hres, ?_⟩
  rw [run_nil] at hm
  cases hm
  obtain ⟨v, hv⟩ := hfix hne
  rw [hv]
  apply set_value_in_range
  rw [hf.2.1, hf.2.2.1]
  exact hmm

/-- C3: on a slider with `min ≤ max` and width different from height, after
each step of any drag sequence (the first `n` drags, `n ≥ 1`), with pointer
positions anywhere, the handler has returned and `current_value` satisfies
`min ≤ current_value ≤ max`; the embedding narrows the scaled 32-bit
intermediate to the 16-bit `tmp` before the bar setter limits it. -/
theorem drag_steps_stay_in_range (s : lv_obj_t) (pts : List point_t) (n : Nat)
    (hmm : s.ext.bar.min_value ≤ s.ext.bar.max_value)
    (hwh : lv_obj_get_width s ≠ lv_obj_get_height s)
    (hn0 : 0 < n) (hn : n ≤ pts.length) :
    ∃ res, lv_slider_run s (drags (pts.take n)) = some res ∧
      res.1.ext.bar.min_value = s.ext.bar.min_value ∧
      res.1.ext.bar.max_value = s.ext.bar.max_value ∧
      s.ext.bar.min_value ≤ res.1.ext.bar.act_value ∧
      res.1.ext.bar.act_value ≤ s.ext.bar.max_value := by
  have hne : pts.take n ≠ [] := by
    intro h
    have hl := congrArg List.length h
    simp only [List.length_take, List.length_nil] at hl
    omega
  obtain ⟨res, hres, hin⟩ := run_drags_in_range (pts.take n) s hne hmm hwh
  have hres2 : lv_slider_run s (drags (pts.take n) ++ []) = some res := by
    rw [List.append_nil]; exact hres
  obtain ⟨m, hf, _, _, hm⟩ := run_drags_append (pts.take n) [] s res hres2
  rw [run_nil] at hm
  cases hm
  refine ⟨_, hres, hf.2.1, hf.2.2.1, ?_, ?_⟩
  · rw [← hf.2.1]; exact hin.1
  · rw [← hf.2.2.1]; exact hin.2

theorem drag_steps_stay_in_range_witness :
    ∃ res, lv_slider_run (lv_slider_create ⟨10, 10, 30, 29⟩ ⟨150, 0, 100⟩)
        (drags ([⟨-32768, 0⟩, ⟨400, 32767⟩, ⟨20, 20⟩].take 2)) = some res ∧
      res.1.ext.bar.min_value = 0 ∧ res.1.ext.bar.max_value = 100 ∧
      0 ≤ res.1.ext.bar.act_value ∧ res.1.ext.bar.act_value ≤ 100 :=
  drag_steps_stay_in_range (lv_slider_create ⟨10, 10, 30, 29⟩ ⟨150, 0, 100⟩)
    [⟨-32768, 0⟩, ⟨400, 32767⟩, ⟨20, 20⟩] 2 (by decide) (by decide) (by decide) (by decide)

/-! ### Signals without an outstanding press -/

/-- C4, as stated, fails: on a freshly created slider (range `[0, 100]`,
value `0`, 200 by 20 pixels) on which no press was ever handled, a drag at
`x = 190` changes `current_value` from `0` to `100`. -/
theorem drag_without_press_changes_value :
    lv_bar_get_value (lv_slider_create ⟨0, 0, 199, 19⟩ ⟨0, 0, 100⟩) = 0 ∧
    (lv_slider_signal true (lv_slider_create ⟨0, 0, 199, 19⟩ ⟨0, 0, 100⟩)
      lv_signal_t.LV_SIGNAL_PRESSING ⟨190, 5⟩).map (fun r => lv_bar_get_value r.obj)
      = some 100 := by
  decide

/-- C4, amended: the handler keeps no pressed state. A drag handled without a
press stores the same `current_value` (and returns in the same cases) as the
same drag handled right after a press; it invokes no callback and leaves
`tmp_value` as it was. -/
theorem drag_ignores_press_state (s : lv_obj_t) (p0 p : point_t) :
    ∃ sp, lv_slider_signal true s lv_signal_t.LV_SIGNAL_PRESSED p0 = some sp ∧
      (lv_slider_signal true s lv_signal_t.LV_SIGNAL_PRESSING p).map
          (fun r => r.obj.ext.bar.act_value) =
        (lv_slider_signal true sp.obj lv_signal_t.LV_SIGNAL_PRESSING p).map
          (fun r => r.obj.ext.bar.act_value) ∧
      ∀ r, lv_slider_signal true s lv_signal_t.LV_SIGNAL_PRESSING p = some r →
        r.calls = [] ∧ r.obj.ext.tmp_value = s.ext.tmp_value := by
  refine ⟨_, signal_pressed s p0, ?_, ?_⟩
  · rw [signal_pressing, signal_pressing]
    have hd : drag_tmp { s with ext := { s.ext with tmp_value := s.ext.bar.act_value } } p
        = drag_tmp s p := rfl
    rw [hd]
    cases drag_tmp s p <;> rfl
  · intro r hr
    obtain ⟨_, hc, v, hv⟩ := pressing_some s p r hr
    exact ⟨hc, by rw [hv]; rfl⟩

/-- C5, as stated, fails: on a freshly created slider (range `[0, 100]`)
whose value was set to `50` through the bar setter, with no press handled,
`LV_SIGNAL_PRESS_LOST` changes `current_value` from `50` to `0`; and with a
callback installed, `LV_SIGNAL_RELEASED` invokes it although no press was
handled. -/
theorem idle_press_lost_or_release_not_noop :
    lv_bar_get_value (lv_bar_set_value (lv_slider_create ⟨0, 0, 199, 19⟩ ⟨0, 0, 100⟩) 50)
      = 50 ∧
    (lv_slider_signal true
      (lv_bar_set_value (lv_slider_create ⟨0, 0, 199, 19⟩ ⟨0, 0, 100⟩) 50)
      lv_signal_t.LV_SIGNAL_PRESS_LOST ⟨0, 0⟩).map (fun r => lv_bar_get_value r.obj)
      = some 0 ∧
    (lv_slider_signal true
      (lv_slider_set_action (lv_slider_create ⟨0, 0, 199, 19⟩ ⟨0, 0, 100⟩) (some 7))
      lv_signal_t.LV_SIGNAL_RELEASED ⟨0, 0⟩).map (fun r => r.calls.map (fun c => c.1))
      = some [7] := by
  decide

/-- C5, amended: on every slider with `min ≤ current_value ≤ max`, press
outstanding or not, `LV_SIGNAL_PRESS_LOST` invokes no callback and stores
`tmp_value` through the bar setter, which leaves `current_value` unchanged
when `tmp_value` equals it; `LV_SIGNAL_RELEASED` leaves `current_value`
unchanged and invokes the callback once when one is set, not at all
otherwise. A freshly created slider has `tmp_value = min`, so after any call
of the bar setter `LV_SIGNAL_PRESS_LOST` sets it to `min` (for `min ≤ max`). -/
theorem idle_press_lost_and_release (s : lv_obj_t) (p : point_t) (hin : InRange s) :
    (∃ r, lv_slider_signal true s lv_signal_t.LV_SIGNAL_PRESS_LOST p = some r ∧
      r.calls = [] ∧ r.obj = lv_bar_set_value s s.ext.tmp_value ∧
      (s.ext.tmp_value = s.ext.bar.act_value →
        r.obj.ext.bar.act_value = s.ext.bar.act_value)) ∧
    (∃ r, lv_slider_signal true s lv_signal_t.LV_SIGNAL_RELEASED p = some r ∧
      r.obj.ext.bar.act_value = s.ext.bar.act_value ∧
      r.calls = (match s.ext.cb with
        | some a => [(a, r.obj)]
        | none => [])) ∧
    (∀ (cords : area_t) (bar : lv_bar_ext_t) (v : Int), bar.min_value ≤ bar.max_value →
      (lv_slider_signal true (lv_bar_set_value (lv_slider_create cords bar) v)
        lv_signal_t.LV_SIGNAL_PRESS_LOST p).map (fun r => lv_bar_get_value r.obj)
        = some bar.min_value) := by
  refine ⟨⟨_, signal_press_lost s p, rfl, rfl, ?_⟩, ⟨_, signal_released s p, ?_, rfl⟩, ?_⟩
  · intro ht
    rw [ht]
    exact stable_of_in_range s hin
  · exact stable_of_in_range s hin
  · intro cords bar v hmm
    rw [signal_press_lost]
    simp only [Option.map_some', lv_bar_get_value]
    congr 1
    exact set_value_of_in_range _ _ (le_refl _) hmm

theorem idle_press_lost_and_release_witness :
    InRange (lv_bar_set_value (lv_slider_create ⟨0, 0, 199, 19⟩ ⟨0, 0, 100⟩) 50) ∧
    (∃ r, lv_slider_signal true
        (lv_bar_set_value (lv_slider_create ⟨0, 0, 199, 19⟩ ⟨0, 0, 100⟩) 50)
        lv_signal_t.LV_SIGNAL_RELEASED ⟨0, 0⟩ = some r ∧
      r.obj.ext.bar.act_value = 50 ∧ r.calls = []) :=
  ⟨by decide,
    (idle_press_lost_and_release
      (lv_bar_set_value (lv_slider_create ⟨0, 0, 199, 19⟩ ⟨0, 0, 100⟩) 50) ⟨0, 0⟩
      (by decide)).2.1⟩

/-! ### Round trip through the knob centre -/

theorem off_bounds (T R v : Int) (hR : 0 < R) (hT : 0 ≤ T) (hv0 : 0 ≤ v) (hvR : v ≤ R) :
    0 ≤ T * v / R ∧ T * v / R ≤ T ∧ T * v / R * R ≤ T * v ∧ T * v < (T * v / R + 1) * R := by
  refine ⟨Int.ediv_nonneg (Int.mul_nonneg hT hv0) (le_of_lt hR), ?_,
    Int.ediv_mul_le _ (ne_of_gt hR), Int.lt_ediv_add_one_mul_self _ hR⟩
  apply Int.ediv_le_of_le_mul hR
  exact Int.mul_le_mul_of_nonneg_left hvR hT

theorem round_trip_h_arith (T R v : Int) (hR : 0 < R) (hTR : R ≤ T) (hv0 : 0 ≤ v)
    (hvR : v ≤ R) :
    v - 1 ≤ T * v / R * (R + 1) / T ∧ T * v / R * (R + 1) / T ≤ v + 1 := by
  obtain ⟨h0, h1, h2, h3⟩ := off_bounds T R v hR (by omega) hv0 hvR
  have hT : 0 < T := by omega
  constructor
  · apply Int.le_ediv_of_mul_le hT
    nlinarith
  · apply Int.ediv_le_of_le_mul hT
    nlinarith

theorem round_trip_v_arith (T R v : Int) (hR : 0 < R) (hTR : R ≤ T) (hv0 : 0 ≤ v)
    (hvR : v ≤ R) (hoff : T * v / R ≤ T - 1) :
    R - v - 1 ≤ (T - 1 - T * v / R) * (R + 1) / T ∧
      (T - 1 - T * v / R) * (R + 1) / T ≤ R - v := by
  obtain ⟨h0, h1, h2, h3⟩ := off_bounds T R v hR (by omega) hv0 hvR
  have hT : 0 < T := by omega
  constructor
  · apply Int.le_ediv_of_mul_le hT
    nlinarith
  · have hlt : (T - 1 - T * v / R) * (R + 1) / T < R - v + 1 := by
      apply Int.ediv_lt_of_lt_mul hT
      nlinarith
    omega

theorem cdiv_some_of_ne (a b : Int) (hb : b ≠ 0) : cdiv a b = some (wrap32 (Int.tdiv a b)) := by
  unfold cdiv
  rw [if_neg hb]

/-- The adjustment `tmp` exists on a widget of positive size with a range
whose 16-bit width is not zero. -/
theorem design_tmp_some (s : lv_obj_t) (hw : 0 < lv_obj_get_width s)
    (hh : 0 < lv_obj_get_height s)
    (hr : wrap16 (s.ext.bar.max_value - s.ext.bar.min_value) ≠ 0) :
    ∃ tmp, design_tmp s = some tmp := by
  unfold design_tmp
  dsimp only
  split
  · rw [cdiv_some_of_ne _ _ (ne_of_gt hw)]
    dsimp only
    rw [cdiv_some_of_ne _ _ hr]
    exact ⟨_, rfl⟩
  · rw [cdiv_some_of_ne _ _ (ne_of_gt hh)]
    dsimp only
    rw [cdiv_some_of_ne _ _ hr]
    exact ⟨_, rfl⟩

theorem set_act_value_self (s : lv_obj_t) : set_act_value s s.ext.bar.act_value = s := rfl

theorem set_act_value_twice (s : lv_obj_t) (a b : Int) :
    set_act_value (set_act_value s a) b = set_act_value s b := rfl

/-- The knob of a horizontal slider with `min = 0`: its leading edge is the
left edge plus `(w - h) * act_value / max`. -/
theorem design_knob_horizontal (s : lv_obj_t) (v : Int)
    (hmin : s.ext.bar.min_value = 0) (hmax : 0 < s.ext.bar.max_value)
    (hm16 : s.ext.bar.max_value ≤ 32767)
    (hv0 : 0 ≤ v) (hvR : v ≤ s.ext.bar.max_value)
    (hwh : lv_obj_get_height s ≤ lv_obj_get_width s) (hh : 0 < lv_obj_get_height s) :
    design_knob s v = some { s.cords with
      x2 := wrap16 (wrap16 ((lv_obj_get_width s - lv_obj_get_height s) * v
              / s.ext.bar.max_value + s.cords.x1) + lv_obj_get_height s),
      x1 := wrap16 ((lv_obj_get_width s - lv_obj_get_height s) * v
              / s.ext.bar.max_value + s.cords.x1) } := by
  obtain ⟨_, hW⟩ := wrap16_bounds (s.cords.x2 - s.cords.x1 + 1)
  have hW : lv_obj_get_width s ≤ 32767 := hW
  have hT0 : 0 ≤ lv_obj_get_width s - lv_obj_get_height s := by omega
  obtain ⟨o0, o1, _, _⟩ := off_bounds _ _ v hmax hT0 hv0 hvR
  have hprod : (lv_obj_get_width s - lv_obj_get_height s) * v ≤ 32767 * 32767 :=
    Int.mul_le_mul (by omega) (by omega) hv0 (by omega)
  have hp0 : 0 ≤ (lv_obj_get_width s - lv_obj_get_height s) * v := Int.mul_nonneg hT0 hv0
  unfold design_knob
  dsimp only
  rw [if_pos hwh, hmin, Int.sub_zero, wrap16_of_int16 _ (by omega) hm16,
    wrap32_of_fits _ (by omega) (by omega), cdiv_of_pos _ _ hp0 (by omega) hmax]
  dsimp only
  rw [wrap16_of_int16 ((lv_obj_get_width s - lv_obj_get_height s) * v / s.ext.bar.max_value)
    (by omega) (by omega), wrap16_add_sub]
  congr 2
  unfold wrap16; omega

/-- The knob of a vertical slider with `min = 0`: its leading (top) edge is
the bottom edge minus `(h - w) * act_value / max` minus the knob size. -/
theorem design_knob_vertical (s : lv_obj_t) (v : Int)
    (hmin : s.ext.bar.min_value = 0) (hmax : 0 < s.ext.bar.max_value)
    (hm16 : s.ext.bar.max_value ≤ 32767)
    (hv0 : 0 ≤ v) (hvR : v ≤ s.ext.bar.max_value)
    (hwh : lv_obj_get_width s < lv_obj_get_height s) (hw : 0 < lv_obj_get_width s) :
    design_knob s v = some { s.cords with
      y1 := wrap16 (wrap16 (s.cords.y2 - (lv_obj_get_height s - lv_obj_get_width s) * v
              / s.ext.bar.max_value) - lv_obj_get_width s),
      y2 := wrap16 (wrap16 (wrap16 (s.cords.y2 -
              (lv_obj_get_height s - lv_obj_get_width s) * v / s.ext.bar.max_value)
              - lv_obj_get_width s) + lv_obj_get_width s) } := by
  obtain ⟨_, hH⟩ := wrap16_bounds (s.cords.y2 - s.cords.y1 + 1)
  have hH : lv_obj_get_height s ≤ 32767 := hH
  have hT0 : 0 ≤ lv_obj_get_height s - lv_obj_get_width s := by omega
  obtain ⟨o0, o1, _, _⟩ := off_bounds _ _ v hmax hT0 hv0 hvR
  have hprod : (lv_obj_get_height s - lv_obj_get_width s) * v ≤ 32767 * 32767 :=
    Int.mul_le_mul (by omega) (by omega) hv0 (by omega)
  have hp0 : 0 ≤ (lv_obj_get_height s - lv_obj_get_width s) * v := Int.mul_nonneg hT0 hv0
  unfold design_knob
  dsimp only
  rw [if_neg (by omega), hmin, Int.sub_zero, wrap16_of_int16 _ (by omega) hm16,
    wrap32_of_fits _ (by omega) (by omega), cdiv_of_pos _ _ hp0 (by omega) hmax]
  dsimp only
  rw [wrap16_of_int16 ((lv_obj_get_height s - lv_obj_get_width s) * v / s.ext.bar.max_value)
    (by omega) (by omega)]

theorem centre_offset_horizontal (off x1 c : Int) (h0 : 0 ≤ off) (h1 : off ≤ 32767) :
    wrap16 (wrap16 (wrap16 (off + x1) + c) - (x1 + c)) = off := by
  unfold wrap16; omega

theorem centre_offset_vertical (off y1 y2 w c : Int) :
    wrap16 (wrap16 (wrap16 (wrap16 (y2 - off) - w) + c) - (y1 + c)) =
      wrap16 (wrap16 (y2 - y1 + 1) - 1 - w - off) := by
  unfold wrap16; omega

/-- The bar setter keeps a value within one of an in-range value within one
of it. -/
theorem set_value_near (s : lv_obj_t) (q v : Int)
    (h1 : s.ext.bar.min_value ≤ v) (h2 : v ≤ s.ext.bar.max_value)
    (h3 : v - 1 ≤ q) (h4 : q ≤ v + 1) :
    |(lv_bar_set_value s q).ext.bar.act_value - v| ≤ 1 := by
  unfold lv_bar_set_value
  dsimp only
  rw [abs_le]
  split_ifs <;> constructor <;> omega

/-- The bar setter caps a value at or above `max` to `max`. -/
theorem set_value_of_ge_max (s : lv_obj_t) (q : Int)
    (h1 : s.ext.bar.min_value ≤ s.ext.bar.max_value) (h2 : s.ext.bar.max_value ≤ q) :
    (lv_bar_set_value s q).ext.bar.act_value = s.ext.bar.max_value := by
  unfold lv_bar_set_value
  dsimp only
  split_ifs <;> omega

/-- Round trip on a horizontal slider with `min = 0` and travel at least the
range. -/
theorem round_trip_horizontal (s : lv_obj_t) (o : Int)
    (hmin : s.ext.bar.min_value = 0) (hmax : 0 < s.ext.bar.max_value)
    (hv0 : 0 ≤ s.ext.bar.act_value) (hvR : s.ext.bar.act_value ≤ s.ext.bar.max_value)
    (hh : 0 < lv_obj_get_height s) (hwh : lv_obj_get_height s < lv_obj_get_width s)
    (htr : s.ext.bar.max_value ≤ lv_obj_get_width s - lv_obj_get_height s) :
    ∃ knob, design_knob s s.ext.bar.act_value = some knob ∧
      ∃ t, drag_tmp s ⟨wrap16 (knob.x1 + Int.tdiv (lv_obj_get_height s) 2), o⟩ = some t ∧
        |(lv_bar_set_value s t).ext.bar.act_value - s.ext.bar.act_value| ≤ 1 := by
  obtain ⟨_, hW⟩ := wrap16_bounds (s.cords.x2 - s.cords.x1 + 1)
  have hW : lv_obj_get_width s ≤ 32767 := hW
  have hT0 : 0 ≤ lv_obj_get_width s - lv_obj_get_height s := by omega
  obtain ⟨o0, o1, _, _⟩ := off_bounds _ _ s.ext.bar.act_value hmax hT0 hv0 hvR
  obtain ⟨q1, q2⟩ := round_trip_h_arith _ _ s.ext.bar.act_value hmax htr hv0 hvR
  refine ⟨_, design_knob_horizontal s _ hmin hmax (by omega) hv0 hvR (le_of_lt hwh) hh, ?_⟩
  dsimp only
  generalize hoff : (lv_obj_get_width s - lv_obj_get_height s) * s.ext.bar.act_value
    / s.ext.bar.max_value = off at o0 o1 q1 q2 ⊢
  have hprod0 : 0 ≤ off * (s.ext.bar.max_value + 1) := Int.mul_nonneg o0 (by omega)
  have hprod : off * (s.ext.bar.max_value + 1) ≤ 32767 * 32767 :=
    Int.mul_le_mul (by omega) (by omega) (by omega) (by omega)
  have hq0 : 0 ≤ off * (s.ext.bar.max_value + 1) / (lv_obj_get_width s - lv_obj_get_height s) :=
    Int.ediv_nonneg hprod0 hT0
  have hd : drag_tmp s ⟨wrap16 (wrap16 (off + s.cords.x1) + Int.tdiv (lv_obj_get_height s) 2), o⟩
      = some (off * (s.ext.bar.max_value + 1) / (lv_obj_get_width s - lv_obj_get_height s)) := by
    unfold drag_tmp lv_dispi_get_point
    dsimp only
    rw [if_pos hwh, centre_offset_horizontal _ _ _ o0 (by omega), hmin, Int.sub_zero,
      wrap32_of_fits _ (by omega) (by omega), cdiv_of_pos _ _ hprod0 (by omega) (by omega)]
    simp only [Option.map_some']
    rw [wrap16_of_int16 _ (by omega) (by omega)]
  exact ⟨_, hd, set_value_near s _ _ (by omega) hvR q1 q2⟩

/-- Round trip on a vertical slider with `min = 0` and travel at least the
range. -/
theorem round_trip_vertical (s : lv_obj_t) (o : Int)
    (hmin : s.ext.bar.min_value = 0) (hmax : 0 < s.ext.bar.max_value)
    (hv0 : 0 ≤ s.ext.bar.act_value) (hvR : s.ext.bar.act_value ≤ s.ext.bar.max_value)
    (hw : 0 < lv_obj_get_width s) (hwh : lv_obj_get_width s < lv_obj_get_height s)
    (htr : s.ext.bar.max_value ≤ lv_obj_get_height s - lv_obj_get_width s) :
    ∃ knob, design_knob s s.ext.bar.act_value = some knob ∧
      ∃ t, drag_tmp s ⟨o, wrap16 (knob.y1 + Int.tdiv (lv_obj_get_width s) 2)⟩ = some t ∧
        |(lv_bar_set_value s t).ext.bar.act_value - s.ext.bar.act_value| ≤ 1 := by
  obtain ⟨_, hH⟩ := wrap16_bounds (s.cords.y2 - s.cords.y1 + 1)
  have hH : lv_obj_get_height s ≤ 32767 := hH
  have hHdef : wrap16 (s.cords.y2 - s.cords.y1 + 1) = lv_obj_get_height s := rfl
  have hT0 : 0 ≤ lv_obj_get_height s - lv_obj_get_width s := by omega
  obtain ⟨o0, o1, o2, _⟩ := off_bounds _ _ s.ext.bar.act_value hmax hT0 hv0 hvR
  refine ⟨_, design_knob_vertical s _ hmin hmax (by omega) hv0 hvR hwh hw, ?_⟩
  dsimp only
  have hpy : ∀ off : Int, 0 ≤ off → off ≤ lv_obj_get_height s - lv_obj_get_width s →
      wrap16 (wrap16 (wrap16 (wrap16 (s.cords.y2 - off) - lv_obj_get_width s)
        + Int.tdiv (lv_obj_get_width s) 2) - (s.cords.y1 + Int.tdiv (lv_obj_get_width s) 2))
      = lv_obj_get_height s - lv_obj_get_width s - 1 - off := by
    intro off h0 h1
    rw [centre_offset_vertical, hHdef, wrap16_of_int16 _ (by omega) (by omega)]
    omega
  by_cases hlast : (lv_obj_get_height s - lv_obj_get_width s) * s.ext.bar.act_value
      / s.ext.bar.max_value ≤ lv_obj_get_height s - lv_obj_get_width s - 1
  · obtain ⟨q1, q2⟩ := round_trip_v_arith _ _ s.ext.bar.act_value hmax htr hv0 hvR hlast
    generalize hoff : (lv_obj_get_height s - lv_obj_get_width s) * s.ext.bar.act_value
      / s.ext.bar.max_value = off at o0 o1 o2 q1 q2 hlast ⊢
    have hprod0 : 0 ≤ (lv_obj_get_height s - lv_obj_get_width s - 1 - off)
        * (s.ext.bar.max_value + 1) := Int.mul_nonneg (by omega) (by omega)
    have hprod : (lv_obj_get_height s - lv_obj_get_width s - 1 - off)
        * (s.ext.bar.max_value + 1) ≤ 32767 * 32767 :=
      Int.mul_le_mul (by omega) (by omega) (by omega) (by omega)
    have hq0 : 0 ≤ (lv_obj_get_height s - lv_obj_get_width s - 1 - off)
        * (s.ext.bar.max_value + 1) / (lv_obj_get_height s - lv_obj_get_width s) :=
      Int.ediv_nonneg hprod0 hT0
    have hd : drag_tmp s ⟨o, wrap16 (wrap16 (wrap16 (s.cords.y2 - off) - lv_obj_get_width s)
          + Int.tdiv (lv_obj_get_width s) 2)⟩
        = some (s.ext.bar.max_value - (lv_obj_get_height s - lv_obj_get_width s - 1 - off)
            * (s.ext.bar.max_value + 1) / (lv_obj_get_height s - lv_obj_get_width s)) := by
      unfold drag_tmp lv_dispi_get_point
      dsimp only
      rw [if_neg (by omega), hpy off o0 o1, hmin, Int.sub_zero,
        wrap32_of_fits _ (by omega) (by omega), cdiv_of_pos _ _ hprod0 (by omega) (by omega)]
      simp only [Option.map_some']
      rw [wrap16_of_int16 ((lv_obj_get_height s - lv_obj_get_width s - 1 - off)
        * (s.ext.bar.max_value + 1) / (lv_obj_get_height s - lv_obj_get_width s))
        (by omega) (by omega), wrap16_of_int16 _ (by omega) (by omega)]
    exact ⟨_, hd, set_value_near s _ _ (by omega) hvR (by omega) (by omega)⟩
  · have hoffT : (lv_obj_get_height s - lv_obj_get_width s) * s.ext.bar.act_value
        / s.ext.bar.max_value = lv_obj_get_height s - lv_obj_get_width s := by omega
    have hvmax : s.ext.bar.act_value = s.ext.bar.max_value := by
      rw [hoffT] at o2
      have : (lv_obj_get_height s - lv_obj_get_width s) * s.ext.bar.max_value
          ≤ (lv_obj_get_height s - lv_obj_get_width s) * s.ext.bar.act_value := o2
      have := Int.le_of_mul_le_mul_left this (by omega)
      omega
    rw [hoffT]
    have hk0 : 0 ≤ (s.ext.bar.max_value + 1) / (lv_obj_get_height s - lv_obj_get_width s) :=
      Int.ediv_nonneg (by omega) hT0
    have hk1 : (s.ext.bar.max_value + 1) / (lv_obj_get_height s - lv_obj_get_width s)
        ≤ s.ext.bar.max_value + 1 := Int.ediv_le_self _ (by omega)
    have hk2 : (s.ext.bar.max_value + 1) / (lv_obj_get_height s - lv_obj_get_width s) ≤ 2 := by
      apply Int.ediv_le_of_le_mul (by omega)
      omega
    have hsum : s.ext.bar.max_value +
        (s.ext.bar.max_value + 1) / (lv_obj_get_height s - lv_obj_get_width s) ≤ 32767 := by
      by_cases hT2 : 2 ≤ lv_obj_get_height s - lv_obj_get_width s
      · have : (s.ext.bar.max_value + 1) / (lv_obj_get_height s - lv_obj_get_width s) < 2 := by
          apply Int.ediv_lt_of_lt_mul (by omega)
          omega
        omega
      · omega
    have hd : drag_tmp s ⟨o, wrap16 (wrap16 (wrap16 (s.cords.y2 -
          (lv_obj_get_height s - lv_obj_get_width s)) - lv_obj_get_width s)
          + Int.tdiv (lv_obj_get_width s) 2)⟩
        = some (s.ext.bar.max_value +
            (s.ext.bar.max_value + 1) / (lv_obj_get_height s - lv_obj_get_width s)) := by
      unfold drag_tmp lv_dispi_get_point
      dsimp only
      rw [if_neg (by omega), hpy _ hT0 (le_refl _), hmin, Int.sub_zero]
      have hm1 : lv_obj_get_height s - lv_obj_get_width s - 1
          - (lv_obj_get_height s - lv_obj_get_width s) = -1 := by omega
      rw [hm1, wrap32_of_fits _ (by omega) (by omega), cdiv_some_of_ne _ _ (by omega)]
      have hneg : (-1 : Int) * (s.ext.bar.max_value + 1) = -(s.ext.bar.max_value + 1) := by ring
      rw [hneg, Int.neg_tdiv, Int.tdiv_eq_ediv (by omega) hT0]
      simp only [Option.map_some']
      rw [wrap32_of_fits _ (by omega) (by omega), wrap16_of_int16 (-_) (by omega) (by omega)]
      rw [wrap16_of_int16 _ (by omega) (by omega)]
      congr 1
      omega
    refine ⟨_, hd, ?_⟩
    rw [set_value_of_ge_max s _ (by omega) (by omega), hvmax]
    simp

/-- C6, as stated, fails, in two ways. With travel smaller than the range
(range `[0, 100]`, 30 by 20 pixels, value `55`) the knob's leading edge is at
`x = 5`, and a drag at its centre `x = 15` gives `50`. With a non-zero minimum
(range `[1000, 1010]`, 120 by 20 pixels, value `1005`) the knob's leading edge
is at `x = 10050`, and a drag at its centre `x = 10060` gives `1010`. -/
theorem knob_centre_round_trip_fails :
    ((lv_slider_design (fun _ _ _ => true) (lv_slider_create ⟨0, 0, 29, 19⟩ ⟨55, 0, 100⟩)
        ⟨0, 0, 29, 19⟩ lv_design_mode_t.LV_DESIGN_DRAW_MAIN).map
        (fun d => d.rects.map (fun k => k.1.x1)) = some [5] ∧
      (lv_slider_signal true (lv_slider_create ⟨0, 0, 29, 19⟩ ⟨55, 0, 100⟩)
        lv_signal_t.LV_SIGNAL_PRESSING ⟨5 + 10, 0⟩).map (fun r => lv_bar_get_value r.obj)
        = some 50) ∧
    ((lv_slider_design (fun _ _ _ => true)
        (lv_slider_create ⟨0, 0, 119, 19⟩ ⟨1005, 1000, 1010⟩)
        ⟨0, 0, 119, 19⟩ lv_design_mode_t.LV_DESIGN_DRAW_MAIN).map
        (fun d => d.rects.map (fun k => k.1.x1)) = some [10050] ∧
      (lv_slider_signal true (lv_slider_create ⟨0, 0, 119, 19⟩ ⟨1005, 1000, 1010⟩)
        lv_signal_t.LV_SIGNAL_PRESSING ⟨10050 + 10, 0⟩).map (fun r => lv_bar_get_value r.obj)
        = some 1010) := by
  decide

/-- C6, amended: on a slider with `min = 0 < max`, `0 ≤ current_value ≤ max`,
positive width and height, and travel distance (`w - h` when horizontal,
`h - w` when vertical) at least `max`, the main draw returns, leaves the
object as it was and draws one knob rectangle; a drag handled with the
pointer at the centre of that knob (leading edge plus half the knob size
along the dominant axis, any coordinate `o` on the other axis) returns a
`current_value` that differs from the drawn one by at most one. -/
theorem knob_centre_round_trip (anc : lv_obj_t → area_t → lv_design_mode_t → Bool)
    (s : lv_obj_t) (mask : area_t) (o : Int)
    (hmin : s.ext.bar.min_value = 0) (hmax : 0 < s.ext.bar.max_value)
    (hv0 : 0 ≤ s.ext.bar.act_value) (hvR : s.ext.bar.act_value ≤ s.ext.bar.max_value)
    (hw : 0 < lv_obj_get_width s) (hh : 0 < lv_obj_get_height s)
    (htr : s.ext.bar.max_value ≤ lv_obj_get_width s - lv_obj_get_height s ∨
      s.ext.bar.max_value ≤ lv_obj_get_height s - lv_obj_get_width s) :
    ∃ d knob, lv_slider_design anc s mask lv_design_mode_t.LV_DESIGN_DRAW_MAIN = some d ∧
      d.obj = s ∧ d.rects = [(knob, mask)] ∧
      ∃ r, lv_slider_signal true d.obj lv_signal_t.LV_SIGNAL_PRESSING
          (if lv_obj_get_width s > lv_obj_get_height s
            then ⟨wrap16 (knob.x1 + Int.tdiv (lv_obj_get_height s) 2), o⟩
            else ⟨o, wrap16 (knob.y1 + Int.tdiv (lv_obj_get_width s) 2)⟩) = some r ∧
        |r.obj.ext.bar.act_value - s.ext.bar.act_value| ≤ 1 := by
  obtain ⟨_, hW⟩ := wrap16_bounds (s.cords.x2 - s.cords.x1 + 1)
  have hW : lv_obj_get_width s ≤ 32767 := hW
  obtain ⟨_, hH⟩ := wrap16_bounds (s.cords.y2 - s.cords.y1 + 1)
  have hH : lv_obj_get_height s ≤ 32767 := hH
  have hr : wrap16 (s.ext.bar.max_value - s.ext.bar.min_value) ≠ 0 := by
    rw [hmin, Int.sub_zero, wrap16_of_int16 _ (by omega) (by omega)]
    omega
  obtain ⟨tmp, htmp⟩ := design_tmp_some s hw hh hr
  have hact : wrap16 (wrap16 (s.ext.bar.act_value + tmp) - tmp) = s.ext.bar.act_value := by
    rw [wrap16_add_sub, wrap16_of_int16 _ (by omega) (by omega)]
  rw [design_main_eq, htmp]
  dsimp only
  rw [hact, set_act_value_twice, set_act_value_self]
  by_cases hwh : lv_obj_get_width s > lv_obj_get_height s
  · obtain ⟨knob, hk, t, ht, hnear⟩ :=
      round_trip_horizontal s o hmin hmax hv0 hvR hh hwh (by omega)
    rw [hk]
    refine ⟨_, knob, rfl, rfl, rfl, ?_⟩
    dsimp only
    rw [if_pos hwh, signal_pressing, ht]
    exact ⟨_, rfl, hnear⟩
  · obtain ⟨knob, hk, t, ht, hnear⟩ :=
      round_trip_vertical s o hmin hmax hv0 hvR hw (by omega) (by omega)
    rw [hk]
    refine ⟨_, knob, rfl, rfl, rfl, ?_⟩
    dsimp only
    rw [if_neg hwh, signal_pressing, ht]
    exact ⟨_, rfl, hnear⟩

theorem knob_centre_round_trip_witness :
    ∃ d knob, lv_slider_design (fun _ _ _ => true)
        (lv_slider_create ⟨5, 5, 24, 304⟩ ⟨37, 0, 100⟩) ⟨0, 0, 319, 239⟩
        lv_design_mode_t.LV_DESIGN_DRAW_MAIN = some d ∧
      d.obj = lv_slider_create ⟨5, 5, 24, 304⟩ ⟨37, 0, 100⟩ ∧
      d.rects = [(knob, ⟨0, 0, 319, 239⟩)] ∧
      ∃ r, lv_slider_signal true d.obj lv_signal_t.LV_SIGNAL_PRESSING
          (if lv_obj_get_width (lv_slider_create ⟨5, 5, 24, 304⟩ ⟨37, 0, 100⟩) >
              lv_obj_get_height (lv_slider_create ⟨5, 5, 24, 304⟩ ⟨37, 0, 100⟩)
            then ⟨wrap16 (knob.x1 + Int.tdiv
              (lv_obj_get_height (lv_slider_create ⟨5, 5, 24, 304⟩ ⟨37, 0, 100⟩)) 2), 7⟩
            else ⟨7, wrap16 (knob.y1 + Int.tdiv
              (lv_obj_get_width (lv_slider_create ⟨5, 5, 24, 304⟩ ⟨37, 0, 100⟩)) 2)⟩) = some r ∧
        |r.obj.ext.bar.act_value
          - (lv_slider_create ⟨5, 5, 24, 304⟩ ⟨37, 0, 100⟩).ext.bar.act_value| ≤ 1 :=
  knob_centre_round_trip (fun _ _ _ => true) (lv_slider_create ⟨5, 5, 24, 304⟩ ⟨37, 0, 100⟩)
    ⟨0, 0, 319, 239⟩ 7 (by decide) (by decide) (by decide) (by decide) (by decide) (by decide)
    (by decide)

/-! ### Knob rectangle and widget bounds -/

/-- C7, evaluated where it fails: range `[0, 100]`, value `100`. On the
200 by 20 widget `(0,0)-(199,19)` the knob drawn is `(180,0)-(200,19)`: its
right edge `200` lies past the widget's right edge `199`. On the 20 by 200
widget `(0,0)-(19,199)` the knob drawn is `(0,-1)-(19,19)`: its top edge `-1`
lies above the widget's top edge `0`. -/
theorem knob_protrudes_past_widget :
    (∃ d knob, lv_slider_design (fun _ _ _ => true)
        (lv_slider_create ⟨0, 0, 199, 19⟩ ⟨100, 0, 100⟩) ⟨0, 0, 319, 239⟩
        lv_design_mode_t.LV_DESIGN_DRAW_MAIN = some d ∧
      d.rects = [(knob, ⟨0, 0, 319, 239⟩)] ∧ knob = ⟨180, 0, 200, 19⟩ ∧
      (lv_slider_create ⟨0, 0, 199, 19⟩ ⟨100, 0, 100⟩).cords.x2 < knob.x2) ∧
    (∃ d knob, lv_slider_design (fun _ _ _ => true)
        (lv_slider_create ⟨0, 0, 19, 199⟩ ⟨100, 0, 100⟩) ⟨0, 0, 319, 239⟩
        lv_design_mode_t.LV_DESIGN_DRAW_MAIN = some d ∧
      d.rects = [(knob, ⟨0, 0, 319, 239⟩)] ∧ knob = ⟨0, -1, 19, 19⟩ ∧
      knob.y1 < (lv_slider_create ⟨0, 0, 19, 199⟩ ⟨100, 0, 100⟩).cords.y1) :=
  ⟨⟨_, _, rfl, rfl, rfl, by decide⟩, ⟨_, _, rfl, rfl, rfl, by decide⟩⟩

/-- With a non-zero minimum the knob offset is scaled from `act_value`, not
from `act_value - min_value`: range `[50, 100]`, value `100`, on the widget
`(0,0)-(199,19)`, gives the knob `(360,0)-(380,19)`. -/
theorem knob_offset_ignores_min :
    (lv_slider_design (fun _ _ _ => true)
        (lv_slider_create ⟨0, 0, 199, 19⟩ ⟨100, 50, 100⟩) ⟨0, 0, 319, 239⟩
        lv_design_mode_t.LV_DESIGN_DRAW_MAIN).map (fun d => d.rects.map (fun k => k.1))
      = some [⟨360, 0, 380, 19⟩] := by
  decide

/-! ### Drag at the ends of a horizontal slider -/

/-- C8, evaluated where it fails. Range `[50, 100]` on the 200 by 20 widget
`(0,0)-(199,19)`: a drag at `x = 190 = width - height / 2` stores `51`, not
`max = 100`. Range `[-50, 50]` on the same widget: a drag at `x = 0` stores
`-5`, not `min = -50`. Range `[0, 100]` on the 21 by 20 widget
`(0,0)-(20,19)`: a drag at `x = 400`, far beyond the last knob position,
stores `0`, not `max = 100`, because the quotient `39390` does not fit the
16-bit `tmp`. -/
theorem horizontal_drag_misses_min_offset :
    (lv_slider_signal true (lv_slider_create ⟨0, 0, 199, 19⟩ ⟨50, 50, 100⟩)
        lv_signal_t.LV_SIGNAL_PRESSING ⟨190, 5⟩).map (fun r => lv_bar_get_value r.obj)
      = some 51 ∧
    (lv_slider_signal true (lv_slider_create ⟨0, 0, 199, 19⟩ ⟨0, -50, 50⟩)
        lv_signal_t.LV_SIGNAL_PRESSING ⟨0, 5⟩).map (fun r => lv_bar_get_value r.obj)
      = some (-5) ∧
    (lv_slider_signal true (lv_slider_create ⟨0, 0, 20, 19⟩ ⟨50, 0, 100⟩)
        lv_signal_t.LV_SIGNAL_PRESSING ⟨400, 5⟩).map (fun r => lv_bar_get_value r.obj)
      = some 0 := by
  decide

/-- The scenario of range `[0, 100]` on a 200 by 20 widget: a press and a
drag at `x = 0` give `0`, a drag to `x = 190` gives `100`, and the release
invokes the installed callback once, with the value `100`. -/
theorem scenario_range_0_100 :
    (lv_slider_run (lv_slider_set_action (lv_slider_create ⟨0, 0, 199, 19⟩ ⟨30, 0, 100⟩) (some 7))
        [(lv_signal_t.LV_SIGNAL_PRESSED, ⟨0, 5⟩), (lv_signal_t.LV_SIGNAL_PRESSING, ⟨0, 5⟩)]).map
        (fun res => lv_bar_get_value res.1) = some 0 ∧
    (lv_slider_run (lv_slider_set_action (lv_slider_create ⟨0, 0, 199, 19⟩ ⟨30, 0, 100⟩) (some 7))
        [(lv_signal_t.LV_SIGNAL_PRESSED, ⟨0, 5⟩), (lv_signal_t.LV_SIGNAL_PRESSING, ⟨0, 5⟩),
          (lv_signal_t.LV_SIGNAL_PRESSING, ⟨190, 5⟩),
          (lv_signal_t.LV_SIGNAL_RELEASED, ⟨190, 5⟩)]).map
        (fun res => (lv_bar_get_value res.1, res.2.map (fun c => (c.1, lv_bar_get_value c.2))))
      = some (100, [(7, 100)]) := by
  decide

/-! ### Division by zero -/

/-- On a slider whose range is zero the main draw divides by zero. -/
theorem design_zero_range_none (anc : lv_obj_t → area_t → lv_design_mode_t → Bool)
    (s : lv_obj_t) (mask : area_t) (h : s.ext.bar.max_value = s.ext.bar.min_value) :
    lv_slider_design anc s mask lv_design_mode_t.LV_DESIGN_DRAW_MAIN = none := by
  have hr : wrap16 (s.ext.bar.max_value - s.ext.bar.min_value) = 0 := by
    rw [h, Int.sub_self]; rfl
  have ht : design_tmp s = none := by
    unfold design_tmp
    dsimp only
    rw [hr]
    split
    · split
      · rfl
      · simp [cdiv]
    · split
      · rfl
      · simp [cdiv]
  rw [design_main_eq, ht]

/-- On a widget whose width equals its height a drag divides by zero. -/
theorem pressing_square_none (s : lv_obj_t) (p : point_t)
    (h : lv_obj_get_width s = lv_obj_get_height s) :
    lv_slider_signal true s lv_signal_t.LV_SIGNAL_PRESSING p = none := by
  rw [signal_pressing]
  unfold drag_tmp
  dsimp only
  rw [if_neg (by omega), h, Int.sub_self]
  simp [cdiv]

/-- C9, evaluated where it fails: with range `[5, 5]` on the widget
`(0,0)-(199,19)` the main draw evaluates a division by the range, which is
zero, and has no result. -/
theorem design_zero_range_divides_by_zero :
    lv_slider_design (fun _ _ _ => true) (lv_slider_create ⟨0, 0, 199, 19⟩ ⟨5, 5, 5⟩)
      ⟨0, 0, 319, 239⟩ lv_design_mode_t.LV_DESIGN_DRAW_MAIN = none := by
  decide

/-- C10, evaluated where it fails: with range `[0, 10]`, on the zero-size
widget `(0,0)-(-1,-1)` and on the 20 by 20 widget `(0,0)-(19,19)`, a drag
evaluates a division by `h - w`, which is zero, and has no result. -/
theorem drag_zero_travel_divides_by_zero :
    lv_slider_signal true (lv_slider_create ⟨0, 0, -1, -1⟩ ⟨0, 0, 10⟩)
      lv_signal_t.LV_SIGNAL_PRESSING ⟨0, 0⟩ = none ∧
    lv_slider_signal true (lv_slider_create ⟨0, 0, 19, 19⟩ ⟨0, 0, 10⟩)
      lv_signal_t.LV_SIGNAL_PRESSING ⟨7, 7⟩ = none := by
  decide

/-! ### Validity reported by the ancestor handler -/

/-- C11: for every signal, object and pointer position, when the ancestor
handler reported `false` the slider handler returns `false`, hands back the
object as it was (so `current_value` and `tmp_value` are unchanged; the
result does not depend on any member of the object) and invokes no callback;
when the ancestor reported `true` every result of the slider handler is
`true`, and the handler has a result for every signal other than a drag and
for a drag on a widget whose width differs from its height. -/
theorem signal_follows_ancestor_validity (s : lv_obj_t) (sign : lv_signal_t) (p : point_t) :
    lv_slider_signal false s sign p = some ⟨false, s, []⟩ ∧
    (∀ r, lv_slider_signal true s sign p = some r → r.valid = true) ∧
    ((sign ≠ lv_signal_t.LV_SIGNAL_PRESSING ∨ lv_obj_get_width s ≠ lv_obj_get_height s) →
      ∃ r, lv_slider_signal true s sign p = some r) := by
  refine ⟨rfl, ?_, ?_⟩
  · intro r hr
    cases sign
    case LV_SIGNAL_PRESSING => exact (pressing_some s p r hr).1
    case LV_SIGNAL_RELEASED =>
      rw [signal_released] at hr
      cases hr
      rfl
    all_goals
      simp only [lv_slider_signal] at hr
      cases hr
      rfl
  · intro h
    cases sign
    case LV_SIGNAL_PRESSING =>
      rcases h with h | h
      · exact absurd rfl h
      · exact pressing_total s p h
    case LV_SIGNAL_RELEASED => exact ⟨_, signal_released s p⟩
    all_goals exact ⟨_, rfl⟩

/-! ### Cover check and post draw -/

/-- C16: in cover-check mode `lv_slider_design` returns what the ancestor
design function returns for the same object, mask and mode, calls it once
with exactly these arguments, draws no rectangle and leaves the object as it
was; in post-draw mode it returns `true`, calls neither the ancestor design
function nor `lv_draw_rect`, and leaves the object as it was. -/
theorem design_cover_chk_and_post (anc : lv_obj_t → area_t → lv_design_mode_t → Bool)
    (s : lv_obj_t) (mask : area_t) :
    lv_slider_design anc s mask lv_design_mode_t.LV_DESIGN_COVER_CHK =
      some ⟨anc s mask lv_design_mode_t.LV_DESIGN_COVER_CHK, s,
        [(s, mask, lv_design_mode_t.LV_DESIGN_COVER_CHK)], []⟩ ∧
    lv_slider_design anc s mask lv_design_mode_t.LV_DESIGN_DRAW_POST =
      some ⟨true, s, [], []⟩ :=
  ⟨rfl, rfl⟩

/-! ### The main draw leaves the object as it was -/

/-- The 16-bit range of `min < max` is not zero. -/
theorem range_ne_zero (mn mx : Int) (h1 : isInt16 mn) (h2 : isInt16 mx) (hlt : mn < mx) :
    wrap16 (mx - mn) ≠ 0 := by
  obtain ⟨a1, a2⟩ := h1
  obtain ⟨b1, b2⟩ := h2
  unfold wrap16
  omega

/-- The knob rectangle exists when the 16-bit range is not zero. -/
theorem design_knob_some (s : lv_obj_t) (v : Int)
    (hr : wrap16 (s.ext.bar.max_value - s.ext.bar.min_value) ≠ 0) :
    ∃ knob, design_knob s v = some knob := by
  unfold design_knob
  dsimp only
  split
  · rw [cdiv_some_of_ne _ _ hr]
    exact ⟨_, rfl⟩
  · rw [cdiv_some_of_ne _ _ hr]
    exact ⟨_, rfl⟩

/-- C12: on a slider with 16-bit members, `min < max` and positive width and
height, the main draw returns `true` and leaves the whole object
(`bar.act_value`, `min_value`, `max_value`, `tmp_value`, the callback and the
coordinates) exactly as it was; the ancestor, which only observes, is called
once, in between, with `act_value` replaced by the 16-bit sum
`act_value + tmp`, and the subtraction of `tmp` undoes the addition also
when that sum wrapped around. -/
theorem design_main_restores_object (anc : lv_obj_t → area_t → lv_design_mode_t → Bool)
    (s : lv_obj_t) (mask : area_t)
    (hact : isInt16 s.ext.bar.act_value) (hmin : isInt16 s.ext.bar.min_value)
    (hmax : isInt16 s.ext.bar.max_value)
    (hlt : s.ext.bar.min_value < s.ext.bar.max_value)
    (hw : 0 < lv_obj_get_width s) (hh : 0 < lv_obj_get_height s) :
    ∃ d tmp, lv_slider_design anc s mask lv_design_mode_t.LV_DESIGN_DRAW_MAIN = some d ∧
      d.ret = true ∧ d.obj = s ∧
      d.anc_calls = [(set_act_value s (wrap16 (s.ext.bar.act_value + tmp)), mask,
        lv_design_mode_t.LV_DESIGN_DRAW_MAIN)] := by
  have hr := range_ne_zero _ _ hmin hmax hlt
  obtain ⟨tmp, htmp⟩ := design_tmp_some s hw hh hr
  have hback : wrap16 (wrap16 (s.ext.bar.act_value + tmp) - tmp) = s.ext.bar.act_value := by
    rw [wrap16_add_sub, wrap16_of_int16 _ hact.1 hact.2]
  obtain ⟨knob, hk⟩ := design_knob_some s s.ext.bar.act_value hr
  rw [design_main_eq, htmp]
  dsimp only
  rw [hback, hk, set_act_value_twice, set_act_value_self]
  exact ⟨_, tmp, rfl, rfl, rfl, rfl⟩

theorem design_main_restores_object_witness :
    ∃ d tmp, lv_slider_design (fun _ _ _ => true)
        (lv_slider_create ⟨0, 0, 299, 199⟩ ⟨-27799, 3979, 31850⟩) ⟨0, 0, 319, 239⟩
        lv_design_mode_t.LV_DESIGN_DRAW_MAIN = some d ∧
      d.ret = true ∧ d.obj = lv_slider_create ⟨0, 0, 299, 199⟩ ⟨-27799, 3979, 31850⟩ ∧
      d.anc_calls = [(set_act_value (lv_slider_create ⟨0, 0, 299, 199⟩ ⟨-27799, 3979, 31850⟩)
        (wrap16 ((lv_slider_create ⟨0, 0, 299, 199⟩ ⟨-27799, 3979, 31850⟩).ext.bar.act_value
          + tmp)), ⟨0, 0, 319, 239⟩, lv_design_mode_t.LV_DESIGN_DRAW_MAIN)] :=
  design_main_restores_object (fun _ _ _ => true)
    (lv_slider_create ⟨0, 0, 299, 199⟩ ⟨-27799, 3979, 31850⟩) ⟨0, 0, 319, 239⟩
    (by decide) (by decide) (by decide) (by decide) (by decide) (by decide)

/-- In the state above the addition wraps around: `tmp = -25772`, and
`-27799 + -25772 = -53571` is stored as `11965`. -/
theorem design_adjustment_wraps_example :
    design_tmp (lv_slider_create ⟨0, 0, 299, 199⟩ ⟨-27799, 3979, 31850⟩) = some (-25772) ∧
    wrap16 (-27799 + -25772) = 11965 := by
  decide

/-! ### The value the ancestor draws -/

/-- The knob value-equivalent: the knob size (the short side) in value units,
`knob_size * range / dominant_extent`. -/
theorem knob_value_bounds (k e R : Int) (hk : 0 < k) (hke : k ≤ e) (hR : 0 < R) :
    0 ≤ k * R / e ∧ k * R / e ≤ R := by
  have he : 0 < e := by omega
  constructor
  · exact Int.ediv_nonneg (Int.mul_nonneg (by omega) (by omega)) (by omega)
  · apply Int.ediv_le_of_le_mul he
    nlinarith

/-- The adjustment for knob value-equivalent `kv`: `(R - d) * kv / R` lies
between `0` and both `kv` and `R - d`. -/
theorem adjustment_bounds (R d kv : Int) (hR : 0 < R) (hd0 : 0 ≤ d) (hdR : d ≤ R)
    (hkv0 : 0 ≤ kv) (hkvR : kv ≤ R) :
    0 ≤ (R - d) * kv / R ∧ (R - d) * kv / R ≤ kv ∧ (R - d) * kv / R ≤ R - d := by
  refine ⟨Int.ediv_nonneg (Int.mul_nonneg (by omega) hkv0) (by omega), ?_, ?_⟩
  · apply Int.ediv_le_of_le_mul hR
    nlinarith
  · apply Int.ediv_le_of_le_mul hR
    nlinarith

/-- On a slider with `min < max`, range fitting in 16 bits, value in range
and positive size, `tmp` exists, is not negative, is at most the knob
value-equivalent and at most `max - act_value`. -/
theorem design_tmp_bounds (s : lv_obj_t)
    (hlt : s.ext.bar.min_value < s.ext.bar.max_value)
    (hfit : s.ext.bar.max_value - s.ext.bar.min_value ≤ 32767)
    (hin : InRange s)
    (hw : 0 < lv_obj_get_width s) (hh : 0 < lv_obj_get_height s) :
    ∃ tmp, design_tmp s = some tmp ∧ 0 ≤ tmp ∧
      tmp ≤ (if lv_obj_get_width s ≥ lv_obj_get_height s
        then lv_obj_get_height s * (s.ext.bar.max_value - s.ext.bar.min_value)
          / lv_obj_get_width s
        else lv_obj_get_width s * (s.ext.bar.max_value - s.ext.bar.min_value)
          / lv_obj_get_height s) ∧
      tmp ≤ s.ext.bar.max_value - s.ext.bar.act_value := by
  obtain ⟨_, hW⟩ := wrap16_bounds (s.cords.x2 - s.cords.x1 + 1)
  have hW : lv_obj_get_width s ≤ 32767 := hW
  obtain ⟨_, hH⟩ := wrap16_bounds (s.cords.y2 - s.cords.y1 + 1)
  have hH : lv_obj_get_height s ≤ 32767 := hH
  obtain ⟨i1, i2⟩ := hin
  have hrange : wrap16 (s.ext.bar.max_value - s.ext.bar.min_value)
      = s.ext.bar.max_value - s.ext.bar.min_value :=
    wrap16_of_int16 _ (by omega) hfit
  have hR : 0 < s.ext.bar.max_value - s.ext.bar.min_value := by omega
  have hd : s.ext.bar.max_value - s.ext.bar.min_value
      - (s.ext.bar.act_value - s.ext.bar.min_value)
      = s.ext.bar.max_value - s.ext.bar.act_value := by omega
  unfold design_tmp
  dsimp only
  rw [hrange]
  generalize hRdef : s.ext.bar.max_value - s.ext.bar.min_value = R at hfit hR hd ⊢
  have key : ∀ k e : Int, 0 < k → k ≤ e → e ≤ 32767 →
      ∃ tmp, (match cdiv (wrap32 (k * R)) e with
        | none => none
        | some q =>
          match cdiv (wrap32 ((R - (s.ext.bar.act_value - s.ext.bar.min_value)) * wrap16 q))
              R with
          | none => none
          | some q2 => some (wrap16 q2)) = some tmp ∧ 0 ≤ tmp ∧ tmp ≤ k * R / e ∧
        tmp ≤ s.ext.bar.max_value - s.ext.bar.act_value := by
    intro k e hk hke he
    obtain ⟨kv0, kvR⟩ := knob_value_bounds k e R hk hke hR
    have hp0 : 0 ≤ k * R := Int.mul_nonneg (by omega) (by omega)
    have hp1 : k * R ≤ 32767 * 32767 := Int.mul_le_mul (by omega) hfit (by omega) (by omega)
    rw [wrap32_of_fits _ (by omega) (by omega), cdiv_of_pos _ _ hp0 (by omega) (by omega)]
    dsimp only
    rw [wrap16_of_int16 (k * R / e) (by omega) (by omega), hd]
    obtain ⟨a0, a1, a2⟩ := adjustment_bounds R (R - (s.ext.bar.max_value - s.ext.bar.act_value))
      (k * R / e) hR (by omega) (by omega) kv0 kvR
    have hsub : R - (R - (s.ext.bar.max_value - s.ext.bar.act_value))
        = s.ext.bar.max_value - s.ext.bar.act_value := by omega
    rw [hsub] at a0 a1 a2
    have hq0 : 0 ≤ (s.ext.bar.max_value - s.ext.bar.act_value) * (k * R / e) :=
      Int.mul_nonneg (by omega) kv0
    have hq1 : (s.ext.bar.max_value - s.ext.bar.act_value) * (k * R / e) ≤ 32767 * 32767 :=
      Int.mul_le_mul (by omega) (by omega) kv0 (by omega)
    rw [wrap32_of_fits _ (by omega) (by omega), cdiv_of_pos _ _ hq0 (by omega) hR]
    dsimp only
    rw [wrap16_of_int16 _ (by omega) (by omega)]
    exact ⟨_, rfl, a0, a1, a2⟩
  by_cases hwh : lv_obj_get_width s ≥ lv_obj_get_height s
  · rw [if_pos hwh, if_pos hwh]
    exact key _ _ hh hwh hW
  · rw [if_neg hwh, if_neg hwh]
    exact key _ _ hw (by omega) hH

/-- The main draw on a slider with 16-bit range members, `min < max`, range
fitting in 16 bits, value in range and positive size: the ancestor is called
once and sees `act_value + tmp` with the bounds of `design_tmp_bounds`; the
object is left as it was and one knob rectangle is drawn. -/
theorem design_main_adjusted (anc : lv_obj_t → area_t → lv_design_mode_t → Bool)
    (s : lv_obj_t) (mask : area_t)
    (hmin : isInt16 s.ext.bar.min_value) (hmax : isInt16 s.ext.bar.max_value)
    (hlt : s.ext.bar.min_value < s.ext.bar.max_value)
    (hfit : s.ext.bar.max_value - s.ext.bar.min_value ≤ 32767)
    (hin : InRange s)
    (hw : 0 < lv_obj_get_width s) (hh : 0 < lv_obj_get_height s) :
    ∃ tmp knob, lv_slider_design anc s mask lv_design_mode_t.LV_DESIGN_DRAW_MAIN =
        some ⟨true, s, [(set_act_value s (s.ext.bar.act_value + tmp), mask,
          lv_design_mode_t.LV_DESIGN_DRAW_MAIN)], [(knob, mask)]⟩ ∧
      0 ≤ tmp ∧
      tmp ≤ (if lv_obj_get_width s ≥ lv_obj_get_height s
        then lv_obj_get_height s * (s.ext.bar.max_value - s.ext.bar.min_value)
          / lv_obj_get_width s
        else lv_obj_get_width s * (s.ext.bar.max_value - s.ext.bar.min_value)
          / lv_obj_get_height s) ∧
      tmp ≤ s.ext.bar.max_value - s.ext.bar.act_value := by
  obtain ⟨tmp, htmp, t0, t1, t2⟩ := design_tmp_bounds s hlt hfit hin hw hh
  have hr := range_ne_zero _ _ hmin hmax hlt
  obtain ⟨knob, hk⟩ := design_knob_some s s.ext.bar.act_value hr
  obtain ⟨i1, i2⟩ := hin
  have hsum : wrap16 (s.ext.bar.act_value + tmp) = s.ext.bar.act_value + tmp :=
    wrap16_of_int16 _ (by have := hmin.1; omega) (by have := hmax.2; omega)
  have hback : wrap16 (s.ext.bar.act_value + tmp - tmp) = s.ext.bar.act_value := by
    rw [Int.add_sub_cancel]
    exact wrap16_of_int16 _ (by have := hmin.1; omega) (by have := hmax.2; omega)
  refine ⟨tmp, knob, ?_, t0, t1, t2⟩
  rw [design_main_eq, htmp]
  dsimp only
  rw [hsum, hback, hk, set_act_value_twice, set_act_value_self]

/-- C15, as stated, fails: the adjustment is added, not subtracted. With
range `[0, 100]`, value `0`, on the 200 by 20 widget the ancestor is handed
`10`, which is greater than `current_value = 0`. Besides, when `max - min`
does not fit 16 bits (range `[-20000, 20000]`, value `0`, same widget) the
ancestor is handed `-4552`. -/
theorem adjusted_value_not_below_current_fails :
    (lv_slider_design (fun _ _ _ => true) (lv_slider_create ⟨0, 0, 199, 19⟩ ⟨0, 0, 100⟩)
        ⟨0, 0, 319, 239⟩ lv_design_mode_t.LV_DESIGN_DRAW_MAIN).map
        (fun d => d.anc_calls.map (fun c => lv_bar_get_value c.1)) = some [10] ∧
    (lv_slider_design (fun _ _ _ => true)
        (lv_slider_create ⟨0, 0, 199, 19⟩ ⟨0, -20000, 20000⟩)
        ⟨0, 0, 319, 239⟩ lv_design_mode_t.LV_DESIGN_DRAW_MAIN).map
        (fun d => d.anc_calls.map (fun c => lv_bar_get_value c.1)) = some [-4552] := by
  decide

/-- C15, amended: on a slider with 16-bit range members, `min < max` with
`max - min` fitting in 16 bits, `min ≤ current_value ≤ max` and positive
width and height, the value the main draw hands to the ancestor design
function is `current_value` plus an amount `tmp` with `0 ≤ tmp` and `tmp` at
most the knob value-equivalent `knob_size * range / dominant_extent`; so the
adjusted value is never less than `current_value`. -/
theorem adjusted_value_adds_knob_share (anc : lv_obj_t → area_t → lv_design_mode_t → Bool)
    (s : lv_obj_t) (mask : area_t)
    (hmin : isInt16 s.ext.bar.min_value) (hmax : isInt16 s.ext.bar.max_value)
    (hlt : s.ext.bar.min_value < s.ext.bar.max_value)
    (hfit : s.ext.bar.max_value - s.ext.bar.min_value ≤ 32767)
    (hin : InRange s)
    (hw : 0 < lv_obj_get_width s) (hh : 0 < lv_obj_get_height s) :
    ∃ d tmp, lv_slider_design anc s mask lv_design_mode_t.LV_DESIGN_DRAW_MAIN = some d ∧
      d.anc_calls = [(set_act_value s (s.ext.bar.act_value + tmp), mask,
        lv_design_mode_t.LV_DESIGN_DRAW_MAIN)] ∧
      0 ≤ tmp ∧
      tmp ≤ (if lv_obj_get_width s ≥ lv_obj_get_height s
        then lv_obj_get_height s * (s.ext.bar.max_value - s.ext.bar.min_value)
          / lv_obj_get_width s
        else lv_obj_get_width s * (s.ext.bar.max_value - s.ext.bar.min_value)
          / lv_obj_get_height s) ∧
      s.ext.bar.act_value ≤ (set_act_value s (s.ext.bar.act_value + tmp)).ext.bar.act_value := by
  obtain ⟨tmp, knob, hd, t0, t1, _⟩ := design_main_adjusted anc s mask hmin hmax hlt hfit hin hw hh
  refine ⟨_, tmp, hd, rfl, t0, t1, ?_⟩
  show s.ext.bar.act_value ≤ s.ext.bar.act_value + tmp
  omega

theorem adjusted_value_adds_knob_share_witness :
    ∃ d tmp, lv_slider_design (fun _ _ _ => true)
        (lv_slider_create ⟨0, 0, 19, 199⟩ ⟨-40, -100, 100⟩) ⟨0, 0, 319, 239⟩
        lv_design_mode_t.LV_DESIGN_DRAW_MAIN = some d ∧
      d.anc_calls = [(set_act_value (lv_slider_create ⟨0, 0, 19, 199⟩ ⟨-40, -100, 100⟩)
        (-40 + tmp), ⟨0, 0, 319, 239⟩, lv_design_mode_t.LV_DESIGN_DRAW_MAIN)] ∧
      0 ≤ tmp ∧ tmp ≤ 20 ∧
      (-40 : Int) ≤ (set_act_value (lv_slider_create ⟨0, 0, 19, 199⟩ ⟨-40, -100, 100⟩)
        (-40 + tmp)).ext.bar.act_value :=
  adjusted_value_adds_knob_share (fun _ _ _ => true)
    (lv_slider_create ⟨0, 0, 19, 199⟩ ⟨-40, -100, 100⟩) ⟨0, 0, 319, 239⟩
    (by decide) (by decide) (by decide) (by decide) (by decide) (by decide) (by decide)

/-- C19: on a slider with 16-bit range members, `min < max` with `max - min`
fitting in 16 bits, `min ≤ current_value ≤ max` and positive width and
height, the main draw returns and the one call of the ancestor design
function sees an `act_value` in `[current_value, max]` (so in `[min, max]`), which is `max` when
`current_value = max`; range, coordinates, callback and `tmp_value` are the
object's own. -/
theorem ancestor_sees_value_in_range (anc : lv_obj_t → area_t → lv_design_mode_t → Bool)
    (s : lv_obj_t) (mask : area_t)
    (hmin : isInt16 s.ext.bar.min_value) (hmax : isInt16 s.ext.bar.max_value)
    (hlt : s.ext.bar.min_value < s.ext.bar.max_value)
    (hfit : s.ext.bar.max_value - s.ext.bar.min_value ≤ 32767)
    (hin : InRange s)
    (hw : 0 < lv_obj_get_width s) (hh : 0 < lv_obj_get_height s) :
    ∃ d seen, lv_slider_design anc s mask lv_design_mode_t.LV_DESIGN_DRAW_MAIN = some d ∧
      d.anc_calls = [(set_act_value s seen, mask, lv_design_mode_t.LV_DESIGN_DRAW_MAIN)] ∧
      s.ext.bar.min_value ≤ seen ∧
      s.ext.bar.act_value ≤ seen ∧ seen ≤ s.ext.bar.max_value ∧
      (s.ext.bar.act_value = s.ext.bar.max_value → seen = s.ext.bar.max_value) := by
  obtain ⟨tmp, knob, hd, t0, _, t2⟩ := design_main_adjusted anc s mask hmin hmax hlt hfit hin hw hh
  have hlo := hin.1
  refine ⟨_, s.ext.bar.act_value + tmp, hd, rfl, by omega, by omega, by omega, ?_⟩
  intro he
  omega

theorem ancestor_sees_value_in_range_witness :
    ∃ d seen, lv_slider_design (fun _ _ _ => true)
        (lv_slider_create ⟨0, 0, 199, 19⟩ ⟨100, 0, 100⟩) ⟨0, 0, 319, 239⟩
        lv_design_mode_t.LV_DESIGN_DRAW_MAIN = some d ∧
      d.anc_calls = [(set_act_value (lv_slider_create ⟨0, 0, 199, 19⟩ ⟨100, 0, 100⟩) seen,
        ⟨0, 0, 319, 239⟩, lv_design_mode_t.LV_DESIGN_DRAW_MAIN)] ∧
      0 ≤ seen ∧ 100 ≤ seen ∧ seen ≤ 100 ∧ ((100 : Int) = 100 → seen = 100) :=
  ancestor_sees_value_in_range (fun _ _ _ => true)
    (lv_slider_create ⟨0, 0, 199, 19⟩ ⟨100, 0, 100⟩) ⟨0, 0, 319, 239⟩
    (by decide) (by decide) (by decide) (by decide) (by decide) (by decide) (by decide)

/-! ### The default style is made once -/

/-- Once the flag is set, a call of `lv_sliders_get` leaves the static
storage as it is and hands out the stored style. -/
theorem sliders_get_inited (env : StyleEnv) (st : StyleState) (style : lv_sliders_builtin_t)
    (copy : Option Nat) (h : st.style_inited = true) :
    lv_sliders_get env st style copy =
      (st, ⟨style_ptr.addr_lv_sliders_def, copy.map fun dst => (dst, st.lv_sliders_def)⟩) := by
  unfold lv_sliders_get
  simp only [h]
  cases style <;> rfl

theorem sliders_get_seq_inited (env : StyleEnv) (st : StyleState)
    (calls : List (lv_sliders_builtin_t × Option Nat)) (h : st.style_inited = true) :
    lv_sliders_get_seq env st calls =
      (st, calls.map fun c =>
        ⟨style_ptr.addr_lv_sliders_def, c.2.map fun dst => (dst, st.lv_sliders_def)⟩) := by
  induction calls with
  | nil => rfl
  | cons c cs ih =>
    obtain ⟨style, copy⟩ := c
    simp only [lv_sliders_get_seq, sliders_get_inited env st style copy h, ih, List.map_cons]

/-- C13: for every sequence of calls of `lv_sliders_get` from program start,
with any style identifiers and any `copy` arguments, every call returns the
pointer to the one static `lv_sliders_def`, a non-`NULL` `copy` receives the
value of that instance as `lv_sliders_init` made it, and after the calls (of
any non-empty sequence, so after the first call and after each later one)
`lv_sliders_init` has run exactly once and the instance is still that
value. -/
theorem sliders_get_single_instance (env : StyleEnv)
    (calls : List (lv_sliders_builtin_t × Option Nat)) :
    (lv_sliders_get_seq env style_state_start calls).2 =
      calls.map (fun c => ⟨style_ptr.addr_lv_sliders_def,
        c.2.map fun dst => (dst, (lv_sliders_init env style_state_start).lv_sliders_def)⟩) ∧
    (calls ≠ [] →
      (lv_sliders_get_seq env style_state_start calls).1.init_runs = 1 ∧
      (lv_sliders_get_seq env style_state_start calls).1.style_inited = true ∧
      (lv_sliders_get_seq env style_state_start calls).1.lv_sliders_def =
        (lv_sliders_init env style_state_start).lv_sliders_def) := by
  cases calls with
  | nil => exact ⟨rfl, fun h => absurd rfl h⟩
  | cons c cs =>
    obtain ⟨style, copy⟩ := c
    have hfirst : lv_sliders_get env style_state_start style copy =
        ({ lv_sliders_init env style_state_start with style_inited := true },
          ⟨style_ptr.addr_lv_sliders_def, copy.map fun dst =>
            (dst, (lv_sliders_init env style_state_start).lv_sliders_def)⟩) := by
      cases style <;> rfl
    have hrest := sliders_get_seq_inited env
      { lv_sliders_init env style_state_start with style_inited := true } cs rfl
    have hseq : lv_sliders_get_seq env style_state_start ((style, copy) :: cs) =
        ({ lv_sliders_init env style_state_start with style_inited := true },
          (⟨style_ptr.addr_lv_sliders_def, copy.map fun dst =>
            (dst, (lv_sliders_init env style_state_start).lv_sliders_def)⟩ : StyleGetResult) ::
          cs.map fun c => ⟨style_ptr.addr_lv_sliders_def, c.2.map fun dst =>
            (dst, (lv_sliders_init env style_state_start).lv_sliders_def)⟩) := by
      simp only [lv_sliders_get_seq, hfirst, hrest]
    rw [hseq]
    exact ⟨rfl, fun _ => ⟨rfl, rfl, rfl⟩⟩

/-! ### The drag computation without narrowing -/

/-- C division by a positive divisor is monotone in the dividend. -/
theorem tdiv_mono (a b c : Int) (hc : 0 < c) (hab : a ≤ b) : a.tdiv c ≤ b.tdiv c := by
  have hneg : ∀ x : Int, x < 0 → x.tdiv c = -((-x) / c) := by
    intro x hx
    rw [← Int.tdiv_eq_ediv (by omega) (by omega), Int.neg_tdiv, Int.neg_neg]
  by_cases ha : 0 ≤ a
  · rw [Int.tdiv_eq_ediv ha (by omega), Int.tdiv_eq_ediv (by omega) (by omega)]
    exact Int.ediv_le_ediv hc hab
  · by_cases hb : 0 ≤ b
    · rw [hneg a (by omega), Int.tdiv_eq_ediv hb (by omega)]
      have h1 : 0 ≤ (-a) / c := Int.ediv_nonneg (by omega) (by omega)
      have h2 : 0 ≤ b / c := Int.ediv_nonneg hb (by omega)
      omega
    · rw [hneg a (by omega), hneg b (by omega)]
      have := Int.ediv_le_ediv hc (show -b ≤ -a by omega)
      omega

/-- The product of a 16-bit shifted coordinate and `max - min + 1` of a
16-bit range with `min ≤ max` fits 32 bits. -/
theorem scaled_product_fits (off mn mx : Int) (ho : isInt16 off) (h1 : isInt16 mn)
    (h2 : isInt16 mx) (hmm : mn ≤ mx) :
    -2147483648 ≤ off * (mx - mn + 1) ∧ off * (mx - mn + 1) ≤ 2147483647 := by
  obtain ⟨o1, o2⟩ := ho
  obtain ⟨a1, a2⟩ := h1
  obtain ⟨b1, b2⟩ := h2
  have hR0 : 0 ≤ mx - mn + 1 := by omega
  have hR1 : mx - mn + 1 ≤ 65536 := by omega
  have k1 : 0 ≤ (off + 32768) * (mx - mn + 1) := Int.mul_nonneg (by omega) hR0
  have k2 : 0 ≤ (32767 - off) * (mx - mn + 1) := Int.mul_nonneg (by omega) hR0
  constructor
  · nlinarith
  · nlinarith

/-- The value a horizontal drag hands to the bar setter when nothing is
narrowed: the shifted coordinate scaled by `(max - min + 1) / (w - h)`. -/
theorem drag_tmp_horizontal_exact (s : lv_obj_t) (p : point_t)
    (hmin : isInt16 s.ext.bar.min_value) (hmax : isInt16 s.ext.bar.max_value)
    (hmm : s.ext.bar.min_value ≤ s.ext.bar.max_value)
    (hwh : lv_obj_get_width s > lv_obj_get_height s) (hex : drag_exact s p) :
    drag_tmp s p = some (Int.tdiv ((p.x - (s.cords.x1 + Int.tdiv (lv_obj_get_height s) 2))
      * (s.ext.bar.max_value - s.ext.bar.min_value + 1))
      (lv_obj_get_width s - lv_obj_get_height s)) := by
  unfold drag_exact at hex
  dsimp only at hex
  rw [if_pos hwh] at hex
  obtain ⟨e1, e2⟩ := hex
  obtain ⟨f1, f2⟩ := scaled_product_fits _ _ _ e1 hmin hmax hmm
  unfold drag_tmp lv_dispi_get_point
  unfold lv_dispi_get_point at e1 e2 f1 f2
  dsimp only at e1 e2 f1 f2 ⊢
  rw [if_pos hwh, wrap16_of_int16 _ e1.1 e1.2, wrap32_of_fits _ f1 f2,
    cdiv_some_of_ne _ _ (by omega)]
  simp only [Option.map_some']
  rw [wrap32_of_fits _ (by have := e2.1; omega) (by have := e2.2; omega),
    wrap16_of_int16 _ e2.1 e2.2]

/-- The value a vertical drag hands to the bar setter when nothing is
narrowed: `max` minus the shifted coordinate scaled by
`(max - min + 1) / (h - w)`. -/
theorem drag_tmp_vertical_exact (s : lv_obj_t) (p : point_t)
    (hmin : isInt16 s.ext.bar.min_value) (hmax : isInt16 s.ext.bar.max_value)
    (hmm : s.ext.bar.min_value ≤ s.ext.bar.max_value)
    (hwh : lv_obj_get_width s < lv_obj_get_height s) (hex : drag_exact s p) :
    drag_tmp s p = some (s.ext.bar.max_value -
      Int.tdiv ((p.y - (s.cords.y1 + Int.tdiv (lv_obj_get_width s) 2))
        * (s.ext.bar.max_value - s.ext.bar.min_value + 1))
        (lv_obj_get_height s - lv_obj_get_width s)) := by
  unfold drag_exact at hex
  dsimp only at hex
  rw [if_neg (by omega)] at hex
  obtain ⟨e1, e2, e3⟩ := hex
  obtain ⟨f1, f2⟩ := scaled_product_fits _ _ _ e1 hmin hmax hmm
  unfold drag_tmp lv_dispi_get_point
  unfold lv_dispi_get_point at e1 e2 e3 f1 f2
  dsimp only at e1 e2 e3 f1 f2 ⊢
  rw [if_neg (by omega), wrap16_of_int16 _ e1.1 e1.2, wrap32_of_fits _ f1 f2,
    cdiv_some_of_ne _ _ (by omega)]
  simp only [Option.map_some']
  rw [wrap32_of_fits _ (by have := e2.1; omega) (by have := e2.2; omega),
    wrap16_of_int16 (Int.tdiv _ _) e2.1 e2.2, wrap16_of_int16 _ e3.1 e3.2]

/-- The bar setter raises a value at or below `min` to `min`. -/
theorem set_value_of_le_min (s : lv_obj_t) (q : Int)
    (h1 : s.ext.bar.min_value ≤ s.ext.bar.max_value) (h2 : q ≤ s.ext.bar.min_value) :
    (lv_bar_set_value s q).ext.bar.act_value = s.ext.bar.min_value := by
  unfold lv_bar_set_value
  dsimp only
  split_ifs <;> omega

/-- The bar setter is monotone in the value it is handed. -/
theorem set_value_mono (s : lv_obj_t) (q1 q2 : Int) (h : q1 ≤ q2) :
    (lv_bar_set_value s q1).ext.bar.act_value ≤ (lv_bar_set_value s q2).ext.bar.act_value := by
  unfold lv_bar_set_value
  dsimp only
  split_ifs <;> omega

/-- When no 16-bit store of the drag computation changes a value, the drag
mapping is monotone: non-decreasing in `x` on a horizontal slider,
non-increasing in `y` on a vertical one. -/
theorem drag_monotone_exact (s : lv_obj_t) (a b : point_t)
    (hmin : isInt16 s.ext.bar.min_value) (hmax : isInt16 s.ext.bar.max_value)
    (hmm : s.ext.bar.min_value ≤ s.ext.bar.max_value)
    (ha : drag_exact s a) (hb : drag_exact s b) :
    (lv_obj_get_width s > lv_obj_get_height s → a.x ≤ b.x →
      ∃ ra rb, lv_slider_signal true s lv_signal_t.LV_SIGNAL_PRESSING a = some ra ∧
        lv_slider_signal true s lv_signal_t.LV_SIGNAL_PRESSING b = some rb ∧
        ra.obj.ext.bar.act_value ≤ rb.obj.ext.bar.act_value) ∧
    (lv_obj_get_width s < lv_obj_get_height s → a.y ≤ b.y →
      ∃ ra rb, lv_slider_signal true s lv_signal_t.LV_SIGNAL_PRESSING a = some ra ∧
        lv_slider_signal true s lv_signal_t.LV_SIGNAL_PRESSING b = some rb ∧
        rb.obj.ext.bar.act_value ≤ ra.obj.ext.bar.act_value) := by
  have hR : 0 ≤ s.ext.bar.max_value - s.ext.bar.min_value + 1 := by omega
  constructor
  · intro hwh hab
    rw [signal_pressing, signal_pressing, drag_tmp_horizontal_exact s a hmin hmax hmm hwh ha,
      drag_tmp_horizontal_exact s b hmin hmax hmm hwh hb]
    refine ⟨_, _, rfl, rfl, ?_⟩
    apply set_value_mono
    apply tdiv_mono _ _ _ (by omega)
    exact Int.mul_le_mul_of_nonneg_right (by omega) hR
  · intro hwh hab
    rw [signal_pressing, signal_pressing, drag_tmp_vertical_exact s a hmin hmax hmm hwh ha,
      drag_tmp_vertical_exact s b hmin hmax hmm hwh hb]
    refine ⟨_, _, rfl, rfl, ?_⟩
    apply set_value_mono
    have hq := tdiv_mono
      ((a.y - (s.cords.y1 + Int.tdiv (lv_obj_get_width s) 2))
        * (s.ext.bar.max_value - s.ext.bar.min_value + 1))
      ((b.y - (s.cords.y1 + Int.tdiv (lv_obj_get_width s) 2))
        * (s.ext.bar.max_value - s.ext.bar.min_value + 1))
      (lv_obj_get_height s - lv_obj_get_width s) (by omega)
      (Int.mul_le_mul_of_nonneg_right (by omega) hR)
    omega

/-! ### Monotonicity of the drag mapping -/

/-- C17, evaluated where it fails, with range `[0, 10000]`. On the
horizontal 120 by 20 widget `(0,0)-(119,19)`: a drag at `x = 110` stores
`10000`, a drag further right at `x = 400` stores `0`, because its quotient
`39003` does not fit the 16-bit `tmp`. On the vertical 20 by 120 widget
`(0,400)-(19,519)`: a drag at `y = 0`, above the widget, stores `0`, a drag
lower down at `y = 410` stores `10000`. -/
theorem drag_not_monotone_far_outside :
    ((lv_slider_signal true (lv_slider_create ⟨0, 0, 119, 19⟩ ⟨0, 0, 10000⟩)
        lv_signal_t.LV_SIGNAL_PRESSING ⟨110, 5⟩).map (fun r => lv_bar_get_value r.obj)
        = some 10000 ∧
      (lv_slider_signal true (lv_slider_create ⟨0, 0, 119, 19⟩ ⟨0, 0, 10000⟩)
        lv_signal_t.LV_SIGNAL_PRESSING ⟨400, 5⟩).map (fun r => lv_bar_get_value r.obj)
        = some 0) ∧
    ((lv_slider_signal true (lv_slider_create ⟨0, 400, 19, 519⟩ ⟨0, 0, 10000⟩)
        lv_signal_t.LV_SIGNAL_PRESSING ⟨5, 0⟩).map (fun r => lv_bar_get_value r.obj)
        = some 0 ∧
      (lv_slider_signal true (lv_slider_create ⟨0, 400, 19, 519⟩ ⟨0, 0, 10000⟩)
        lv_signal_t.LV_SIGNAL_PRESSING ⟨5, 410⟩).map (fun r => lv_bar_get_value r.obj)
        = some 10000) := by
  decide

/-! ### Drag at the ends of a vertical slider -/

/-- The ends of a vertical slider when nothing is narrowed: on a vertical
slider (`h > w`) with 16-bit range members and `min ≤ max`, of any sign, and
a pointer for which no 16-bit store of the drag computation changes a value
(`drag_exact`), a drag with local `y ≤ w / 2` returns and sets
`current_value` to `max`, and a drag with local `y ≥ h - w + w / 2` returns
and sets `current_value` to `min`. -/
theorem vertical_drag_ends (s : lv_obj_t) (p : point_t)
    (hmin : isInt16 s.ext.bar.min_value) (hmax : isInt16 s.ext.bar.max_value)
    (hmm : s.ext.bar.min_value ≤ s.ext.bar.max_value)
    (hwh : lv_obj_get_width s < lv_obj_get_height s)
    (hex : drag_exact s p) :
    (p.y - s.cords.y1 ≤ Int.tdiv (lv_obj_get_width s) 2 →
      ∃ r, lv_slider_signal true s lv_signal_t.LV_SIGNAL_PRESSING p = some r ∧
        r.obj.ext.bar.act_value = s.ext.bar.max_value) ∧
    (p.y - s.cords.y1 ≥ lv_obj_get_height s - lv_obj_get_width s
        + Int.tdiv (lv_obj_get_width s) 2 →
      ∃ r, lv_slider_signal true s lv_signal_t.LV_SIGNAL_PRESSING p = some r ∧
        r.obj.ext.bar.act_value = s.ext.bar.min_value) := by
  have hR : 0 ≤ s.ext.bar.max_value - s.ext.bar.min_value + 1 := by omega
  have hT : 0 < lv_obj_get_height s - lv_obj_get_width s := by omega
  rw [signal_pressing, drag_tmp_vertical_exact s p hmin hmax hmm hwh hex]
  constructor
  · intro htop
    refine ⟨_, rfl, ?_⟩
    apply set_value_of_ge_max s _ hmm
    have hq := tdiv_mono
      ((p.y - (s.cords.y1 + Int.tdiv (lv_obj_get_width s) 2))
        * (s.ext.bar.max_value - s.ext.bar.min_value + 1))
      (0 * (s.ext.bar.max_value - s.ext.bar.min_value + 1))
      (lv_obj_get_height s - lv_obj_get_width s) hT
      (Int.mul_le_mul_of_nonneg_right (by omega) hR)
    rw [Int.zero_mul, Int.zero_tdiv] at hq
    omega
  · intro hbot
    refine ⟨_, rfl, ?_⟩
    apply set_value_of_le_min s _ hmm
    have hq := tdiv_mono
      ((lv_obj_get_height s - lv_obj_get_width s)
        * (s.ext.bar.max_value - s.ext.bar.min_value + 1))
      ((p.y - (s.cords.y1 + Int.tdiv (lv_obj_get_width s) 2))
        * (s.ext.bar.max_value - s.ext.bar.min_value + 1))
      (lv_obj_get_height s - lv_obj_get_width s) hT
      (Int.mul_le_mul_of_nonneg_right (by omega) hR)
    rw [Int.mul_tdiv_cancel_left _ (by omega)] at hq
    omega

/-- The ends of the 20 by 200 slider with range `[-50, 50]`: a drag at
`y = 3` stores `50`, a drag at `y = 195` stores `-50`. -/
theorem vertical_drag_ends_witness :
    (∃ r, lv_slider_signal true (lv_slider_create ⟨0, 0, 19, 199⟩ ⟨0, -50, 50⟩)
        lv_signal_t.LV_SIGNAL_PRESSING ⟨5, 3⟩ = some r ∧
      r.obj.ext.bar.act_value = 50) ∧
    (∃ r, lv_slider_signal true (lv_slider_create ⟨0, 0, 19, 199⟩ ⟨0, -50, 50⟩)
        lv_signal_t.LV_SIGNAL_PRESSING ⟨5, 195⟩ = some r ∧
      r.obj.ext.bar.act_value = -50) :=
  ⟨(vertical_drag_ends (lv_slider_create ⟨0, 0, 19, 199⟩ ⟨0, -50, 50⟩) ⟨5, 3⟩
      (by decide) (by decide) (by decide) (by decide) (by decide)).1 (by decide),
   (vertical_drag_ends (lv_slider_create ⟨0, 0, 19, 199⟩ ⟨0, -50, 50⟩) ⟨5, 195⟩
      (by decide) (by decide) (by decide) (by decide) (by decide)).2 (by decide)⟩

/-- C18, evaluated where it fails: the pointer is above the knob's top
position and the scaled quotient fits 16 bits, yet `min` is stored, not
`max`, because `max_value - tmp` is stored in the 16-bit `tmp` once more.
Range `[0, 32000]` on the 20 by 200 widget `(0,0)-(19,199)`, pointer at
`y = -100`: the quotient is `-19556`, `32000 + 19556 = 51556` is stored as
`-13980`, and the value becomes `0`. Range `[0, 30000]` on the 20 by 200
widget `(0,100)-(19,299)`, pointer at `y = 80`, 20 pixels above it: the
quotient is `-5000`, `35000` is stored as `-30536`, and the value becomes
`0`. -/
theorem vertical_drag_top_stores_min :
    (isInt16 (Int.tdiv ((-100 - (0 + Int.tdiv 20 2)) * (32000 - 0 + 1)) (200 - 20)) ∧
      Int.tdiv ((-100 - (0 + Int.tdiv 20 2)) * (32000 - 0 + 1)) (200 - 20) = -19556 ∧
      drag_tmp (lv_slider_create ⟨0, 0, 19, 199⟩ ⟨5, 0, 32000⟩) ⟨5, -100⟩ = some (-13980) ∧
      (lv_slider_signal true (lv_slider_create ⟨0, 0, 19, 199⟩ ⟨5, 0, 32000⟩)
        lv_signal_t.LV_SIGNAL_PRESSING ⟨5, -100⟩).map (fun r => lv_bar_get_value r.obj)
        = some 0) ∧
    (isInt16 (Int.tdiv ((80 - (100 + Int.tdiv 20 2)) * (30000 - 0 + 1)) (200 - 20)) ∧
      Int.tdiv ((80 - (100 + Int.tdiv 20 2)) * (30000 - 0 + 1)) (200 - 20) = -5000 ∧
      drag_tmp (lv_slider_create ⟨0, 100, 19, 299⟩ ⟨5, 0, 30000⟩) ⟨5, 80⟩ = some (-30536) ∧
      (lv_slider_signal true (lv_slider_create ⟨0, 100, 19, 299⟩ ⟨5, 0, 30000⟩)
        lv_signal_t.LV_SIGNAL_PRESSING ⟨5, 80⟩).map (fun r => lv_bar_get_value r.obj)
        = some 0) := by
  decide

/-! ### Knob offset and the range minimum -/

/-- C14, evaluated where it fails: range `[50, 100]`, value `75`. On the
200 by 20 widget `(0,0)-(199,19)` the knob's leading edge is drawn at
`x = 270`, where `(current_value - min) * (width - height) / range` gives
the offset `90`; on the 20 by 200 widget `(0,0)-(19,199)` the knob is drawn
at `y = -91 .. -71`, outside the widget. -/
theorem knob_leading_edge_ignores_min :
    (∃ d knob, lv_slider_design (fun _ _ _ => true)
        (lv_slider_create ⟨0, 0, 199, 19⟩ ⟨75, 50, 100⟩) ⟨0, 0, 319, 239⟩
        lv_design_mode_t.LV_DESIGN_DRAW_MAIN = some d ∧
      d.rects = [(knob, ⟨0, 0, 319, 239⟩)] ∧ knob = ⟨270, 0, 290, 19⟩ ∧
      (0 : Int) + (75 - 50) * (200 - 20) / (100 - 50) = 90) ∧
    (∃ d knob, lv_slider_design (fun _ _ _ => true)
        (lv_slider_create ⟨0, 0, 19, 199⟩ ⟨75, 50, 100⟩) ⟨0, 0, 319, 239⟩
        lv_design_mode_t.LV_DESIGN_DRAW_MAIN = some d ∧
      d.rects = [(knob, ⟨0, 0, 319, 239⟩)] ∧ knob = ⟨0, -91, 19, -71⟩) :=
  ⟨⟨_, _, rfl, rfl, rfl, by decide⟩, ⟨_, _, rfl, rfl, rfl⟩⟩

end LvSlider
